import Mathlib

/-!
Verification of the simpled resolution core (validator, variable
interpolation engine, and resolver) against its specification.

The Rust source (src/spec.rs, src/validator.rs, src/resolver.rs) is
shallowly embedded: structs become structures, enums become inductives,
`Result` becomes `Except` over an error inductive with one constructor per
`return Err` site (anyhow's `.context` only decorates the message, so a
propagated error keeps its identity), `HashMap` becomes an association
list with first-match lookup, `HashSet` becomes a list with membership
tests, and the filesystem / process environment consulted by `resolve`
becomes an explicit `SysState` value.  `semver::Version` is modelled by
its rendered string (the resolver only ever calls `to_string` on it) and
`semver::VersionReq` by a decidable predicate on version strings (the
external crate's `matches`).
-/

namespace Simpled

/-! ### Data model, from src/spec.rs -/

structure EnvVariable where
  name : String
  value : String
deriving DecidableEq, Repr

structure ExternalEnvVariable where
  name : String
  default : Option String
deriving DecidableEq, Repr

structure OptionalEnvVariable where
  name : String
deriving DecidableEq, Repr

structure RelativeEnvVariable where
  name : String
  relative_value : String
deriving DecidableEq, Repr

structure InternalEnvVariable where
  name : String
  value : String
deriving DecidableEq, Repr

structure AppEnvironment where
  external : List ExternalEnvVariable
  optional : List OptionalEnvVariable
  relative : List RelativeEnvVariable
  internal : List InternalEnvVariable
deriving DecidableEq, Repr

structure AppSecretOption where
  secret_name : String
deriving DecidableEq, Repr

structure ServicePort where
  external : Nat
  internal : Nat
deriving DecidableEq, Repr

inductive ServiceType where
  | Public
  | Internal
  | Job
deriving DecidableEq, Repr

inductive ServiceEnvOption where
  | All
  | Simple (name : String)
  | WithValue (key value : String)
deriving DecidableEq, Repr

structure ServiceConfigOption where
  config_name : String
  mount_path : String
deriving DecidableEq, Repr

inductive SecretMount where
  | FilePath (path : String)
  | EnvVariable (name : String)
deriving DecidableEq, Repr

structure ServiceSecret where
  name : String
  mount : SecretMount
deriving DecidableEq, Repr

structure ImageVariant where
  variant_name : String
  image : String
deriving DecidableEq, Repr

structure ServiceSpec where
  name : String
  service_type : ServiceType
  is_app_service : Bool
  image_variants : List ImageVariant
  environment : List ServiceEnvOption
  configs : List ServiceConfigOption
  secrets : List ServiceSecret
  ports : List ServicePort
deriving DecidableEq, Repr

structure ConfigSpec where
  name : String
  files : List String
deriving DecidableEq, Repr

structure AppSpec where
  name : String
  version : String
  environment : AppEnvironment
  app_services : List ServiceSpec
  extra_services : List ServiceSpec
  configs : List ConfigSpec
  secrets : List AppSecretOption
deriving DecidableEq, Repr

def AppSpec.all_services (a : AppSpec) : List ServiceSpec :=
  a.app_services ++ a.extra_services

inductive DockerIngressType where
  | Nginx
  | Traefik
deriving DecidableEq, Repr

structure DockerSpecificSpec where
  ingress_type : DockerIngressType
  swarm_mode : Bool
deriving DecidableEq, Repr

inductive DeploymentEnvType where
  | K8S
  | Docker (spec : DockerSpecificSpec)
  | Local
deriving DecidableEq, Repr

structure HostSpec where
  name : String
  domain_names : List String
deriving DecidableEq, Repr

structure LetsEncryptSpec where
  server : Option String
  email : String
deriving DecidableEq, Repr

structure IngressTlsSpec where
  secret : Option String
  letsencrypt : Option LetsEncryptSpec
deriving DecidableEq, Repr

structure IngressSpec where
  name : String
  hosts : List HostSpec
  tls : Option IngressTlsSpec
deriving DecidableEq, Repr

/-- Source struct `Prefix` (renamed: `prefix` is reserved in Lean); field
`value` stands for the source field `prefix`. -/
structure PrefixSpec where
  value : String
  strip : Bool
deriving DecidableEq, Repr

structure ResourceLimits where
  memory : String
  cpu : String
deriving DecidableEq, Repr

structure ResourcesSpec where
  replicas : Nat
  requests : ResourceLimits
  limits : ResourceLimits
deriving DecidableEq, Repr

structure DeploymentServiceSpec where
  variant : Option String
  host : Option String
  prefixes : List PrefixSpec
  resources : ResourcesSpec
  ports : List ServicePort
deriving DecidableEq, Repr

/-- The semver `VersionReq` of the external crate, modelled as a decidable
predicate on rendered version strings. -/
def VersionReq : Type := String → Bool

/-- Source struct `DeploymentAppSpec`. -/
structure DeploymentAppSpec where
  name : String
  version : Option VersionReq
  extra : List String

inductive DeploymentSecretSource where
  | EnvVariable (name : String)
  | FilePath (path : String)
  | Embedded (value : String)
deriving DecidableEq, Repr

structure DeploymentSecretSpec where
  secret_name : String
  source : DeploymentSecretSource
deriving DecidableEq, Repr

/-- Source struct `DeploymentSpec`; the `services` HashMap is modelled as an
association list with first-match lookup. -/
structure DeploymentSpec where
  name : String
  primary_host : String
  application : DeploymentAppSpec
  environment : List EnvVariable
  undockerized_environment : List EnvVariable
  configs : List ConfigSpec
  secrets : List DeploymentSecretSpec
  defaults : ResourcesSpec
  services : Option (List (String × DeploymentServiceSpec))

/-- Source struct `DeploymentEnvironmentSpec`; the registry HashMap is an
association list with first-match lookup. -/
structure DeploymentEnvironmentSpec where
  env_type : DeploymentEnvType
  ingress : IngressSpec
  registry : List (String × String)
  deployments : List DeploymentSpec

/-! ### Resolved model, as constructed by src/resolver.rs -/

structure ConfigResolvedFile where
  name : String
  content : String
deriving DecidableEq, Repr

structure ConfigResolvedSpec where
  name : String
  files : List ConfigResolvedFile
deriving DecidableEq, Repr

structure SecretResolvedSpec where
  name : String
  value : String
deriving DecidableEq, Repr

structure ServiceResolvedSpec where
  full_name : String
  service_type : ServiceType
  image : String
  service_host : String
  environment_variables : List EnvVariable
  undockerized_environment_variables : List EnvVariable
  configs : List ServiceConfigOption
  secrets : List ServiceSecret
  ports : List ServicePort
deriving DecidableEq, Repr

structure DeploymentResolvedSpec where
  name : String
  application_name : String
  configs : List ConfigResolvedSpec
  secrets : List SecretResolvedSpec
  defaults : ResourcesSpec
  services : List ServiceResolvedSpec
deriving DecidableEq, Repr

structure IngressToServiceRule where
  service_name : String
  port : Nat
  prefix_value : String
  strip_flag : Bool
deriving DecidableEq, Repr

structure IngressRule where
  domain_name : String
  services : List IngressToServiceRule
deriving DecidableEq, Repr

structure LetsEncryptResolvedSpec where
  server : String
  email : String
deriving DecidableEq, Repr

structure IngressTlsResolvedSpec where
  secret : Option String
  letsencrypt : Option LetsEncryptResolvedSpec
deriving DecidableEq, Repr

structure IngressResolvedSpec where
  name : String
  domains : List String
  rules : List IngressRule
  tls : Option IngressTlsResolvedSpec
deriving DecidableEq, Repr

structure EnvironmentResolvedSpec where
  ingress : IngressResolvedSpec
  current_deployment : DeploymentResolvedSpec
  env_type : DeploymentEnvType
deriving DecidableEq, Repr

/-! ### Error model: one constructor per `return Err` site of the resolver.
`anyhow::Context::context` only decorates the message of an error being
propagated, so propagation keeps the error value unchanged. -/

inductive ResolveError where
  | deploymentNotFound (name : String)
  | configFileNotFound (path : String)
  | configReadFailed (path : String)
  | secretEnvNotSet (name : String)
  | secretFileNotFound (path : String)
  | secretReadFailed (path : String)
  | hostNotFound (host : String)
  | imageVariantNotFound (variant service : String)
  | registryRequired
  | registryNamespaceNotFound (ns : String)
  | duplicateHostPrefix (service host value : String)
  | invalidVariableReference
  | undefinedVariable (name : String)
  | missingExternal (name : String)
  | serviceUndefinedEnvVar (service name : String)
  | serviceUndefinedConfig (service config : String)
  | serviceUndefinedSecret (service secret : String)
deriving DecidableEq, Repr

/-! ### Variable interpolation engine, from `resolve_variable_in_string`
(src/resolver.rs lines 315-341).

The Rust loop repeatedly finds the next `"${"`, then the first `'}'` after
it, looks the name between them up in `vars`, appends the value, and
continues after the `'}'`.  The embedding runs the same scan as a
structurally recursive state machine over the character list: `plain` is
the state outside a reference, `inRef acc` the state after a `"${"` with
`acc` the name characters read so far. -/

inductive InterpState where
  | plain
  | inRef (acc : List Char)
deriving DecidableEq, Repr

def interpGo (vars : List EnvVariable) : InterpState → List Char → Except ResolveError (List Char)
  | .plain, [] => .ok []
  | .plain, [c] => .ok [c]
  | .plain, c1 :: c2 :: rest =>
      if c1 = '$' ∧ c2 = '{' then interpGo vars (.inRef []) rest
      else match interpGo vars .plain (c2 :: rest) with
        | .ok tail => .ok (c1 :: tail)
        | .error e => .error e
  | .inRef _, [] => .error .invalidVariableReference
  | .inRef acc, c :: rest =>
      if c = '}' then
        match vars.find? (fun v => v.name = String.mk acc) with
        | some v =>
            match interpGo vars .plain rest with
            | .ok tail => .ok (v.value.data ++ tail)
            | .error e => .error e
        | none => .error (.undefinedVariable (String.mk acc))
      else interpGo vars (.inRef (acc ++ [c])) rest

def resolve_variable_in_string (input : String) (vars : List EnvVariable) : Except ResolveError String :=
  match interpGo vars .plain input.data with
  | .ok cs => .ok (String.mk cs)
  | .error e => .error e

/-! ### Environment variable accumulation, from `add_unique_var` and
`resolve_app_env_vars` (src/resolver.rs lines 307-313 and 343-399). -/

/-- Source function `add_unique_var`: replace the value of the first entry
with the same name in place, otherwise push at the end. -/
def add_unique_var : List EnvVariable → EnvVariable → List EnvVariable
  | [], var => [var]
  | v :: rest, var =>
      if v.name = var.name then { v with value := var.value } :: rest
      else v :: add_unique_var rest var

/-- External tier pass of `resolve_app_env_vars`: deployment-supplied value,
else the declared default, else fatal. -/
def externalPass (deployment_values : List EnvVariable) :
    List ExternalEnvVariable → List EnvVariable → Except ResolveError (List EnvVariable)
  | [], acc => .ok acc
  | e :: rest, acc =>
      let val := match deployment_values.find? (fun d => d.name = e.name) with
        | some d => some d.value
        | none => e.default
      match val with
      | some v => externalPass deployment_values rest (add_unique_var acc ⟨e.name, v⟩)
      | none => .error (.missingExternal e.name)

/-- Optional tier pass of `resolve_app_env_vars`: include a declaration only
when the deployment supplies a value. -/
def optionalPass (deployment_values : List EnvVariable) :
    List OptionalEnvVariable → List EnvVariable → List EnvVariable
  | [], acc => acc
  | o :: rest, acc =>
      match deployment_values.find? (fun d => d.name = o.name) with
      | some d => optionalPass deployment_values rest (add_unique_var acc ⟨o.name, d.value⟩)
      | none => optionalPass deployment_values rest acc

/-- Relative tier pass of `resolve_app_env_vars`; entries are skipped
entirely when no host domain name is supplied. -/
def relativePass (host_domain_name : Option String) :
    List RelativeEnvVariable → List EnvVariable → Except ResolveError (List EnvVariable)
  | [], acc => .ok acc
  | r :: rest, acc =>
      match host_domain_name with
      | some h =>
          match resolve_variable_in_string ("https://" ++ h ++ r.relative_value) acc with
          | .ok value => relativePass host_domain_name rest (add_unique_var acc ⟨r.name, value⟩)
          | .error e => .error e
      | none => relativePass host_domain_name rest acc

/-- Internal tier pass of `resolve_app_env_vars`: each value is interpolated
against the accumulator built so far. -/
def internalPass : List InternalEnvVariable → List EnvVariable → Except ResolveError (List EnvVariable)
  | [], acc => .ok acc
  | i :: rest, acc =>
      match resolve_variable_in_string i.value acc with
      | .ok value => internalPass rest (add_unique_var acc ⟨i.name, value⟩)
      | .error e => .error e

def resolve_app_env_vars (app_spec : AppSpec) (deployment_values : List EnvVariable)
    (host_domain_name : Option String) : Except ResolveError (List EnvVariable) :=
  match externalPass deployment_values app_spec.environment.external [] with
  | .error e => .error e
  | .ok acc1 =>
      let acc2 := optionalPass deployment_values app_spec.environment.optional acc1
      match relativePass host_domain_name app_spec.environment.relative acc2 with
      | .error e => .error e
      | .ok acc3 => internalPass app_spec.environment.internal acc3

/-- Selector loop of `filter_service_env_vars` (src/resolver.rs lines
401-431). -/
def filterPass (svc_name : String) (all_env_vars : List EnvVariable) :
    List ServiceEnvOption → List EnvVariable → Except ResolveError (List EnvVariable)
  | [], acc => .ok acc
  | .All :: rest, acc =>
      filterPass svc_name all_env_vars rest (all_env_vars.foldl add_unique_var acc)
  | .Simple n :: rest, acc =>
      match all_env_vars.find? (fun e => e.name = n) with
      | some v => filterPass svc_name all_env_vars rest (add_unique_var acc v)
      | none => .error (.serviceUndefinedEnvVar svc_name n)
  | .WithValue k v :: rest, acc =>
      match resolve_variable_in_string v all_env_vars with
      | .ok value => filterPass svc_name all_env_vars rest (add_unique_var acc ⟨k, value⟩)
      | .error e => .error e

def filter_service_env_vars (app_service : ServiceSpec) (all_env_vars : List EnvVariable) :
    Except ResolveError (List EnvVariable) :=
  filterPass app_service.name all_env_vars app_service.environment []

/-! ### Image resolution, from `resolve_app_service_image`
(src/resolver.rs lines 288-305) and the image section of the service loop
(lines 115-139). -/

/-- Rust `str::split_once`: split at the first occurrence of the character,
returning the parts before and after it. -/
def splitOnceChars (c : Char) : List Char → Option (List Char × List Char)
  | [] => none
  | x :: rest =>
      if x = c then some ([], rest)
      else match splitOnceChars c rest with
        | some (a, b) => some (x :: a, b)
        | none => none

/-- Rust `str::strip_suffix('/')` composed with `unwrap_or`: drop one
trailing slash when present. -/
def stripTrailingSlash (s : String) : String :=
  if s.data.getLast? = some '/' then String.mk s.data.dropLast else s

def resolve_app_service_image (env_spec : DeploymentEnvironmentSpec) (raw_image : String) :
    Except ResolveError String :=
  match splitOnceChars '/' raw_image.data with
  | some (ns, _) =>
      let nsStr := String.mk ns
      match (env_spec.registry.find? (fun p => p.1 = nsStr)).map (·.2) with
      | some registry_host => .ok (stripTrailingSlash registry_host ++ "/" ++ raw_image)
      | none =>
          if env_spec.env_type = .Local then .ok raw_image
          else .error (.registryNamespaceNotFound nsStr)
  | none => .ok raw_image

/-- Image section of the service loop (src/resolver.rs lines 115-139):
variant selection, version tagging for app services, the registry-required
check, and registry prefixing for app services. -/
def resolveImage (env_spec : DeploymentEnvironmentSpec) (app_version : String)
    (app_service : ServiceSpec) (variant_name : String) : Except ResolveError String :=
  match (app_service.image_variants.find? (fun v => v.variant_name = variant_name)).map (·.image) with
  | none => .error (.imageVariantNotFound variant_name app_service.name)
  | some raw0 =>
      let raw := if app_service.is_app_service then
          (if env_spec.env_type = .Local then raw0 ++ ":latest" else raw0 ++ ":" ++ app_version)
        else raw0
      if env_spec.env_type ≠ .Local ∧ env_spec.registry = [] then .error .registryRequired
      else if app_service.is_app_service then resolve_app_service_image env_spec raw
      else .ok raw

/-! ### Filesystem and process environment consulted by `resolve`,
modelled as an explicit state value.  A directory node holds the regular
files directly inside it (name and content); file contents are modelled as
the strings the resolver extracts from them. -/

inductive FsNode where
  | file (content : String)
  | dir (entries : List (String × String))
deriving DecidableEq, Repr

structure SysState where
  fs : List (String × FsNode)
  procEnv : List (String × String)
deriving DecidableEq, Repr

def SysState.node (s : SysState) (p : String) : Option FsNode :=
  (s.fs.find? (fun e => e.1 = p)).map (·.2)

/-- Rust `Path::file_name` for the plain relative/absolute paths the
resolver handles: the last slash-separated component. -/
def fileName (p : String) : String :=
  (p.splitOn "/").getLastD ""

/-- Config file list resolution (src/resolver.rs lines 22-43): a directory
contributes every regular file directly inside it, a plain path contributes
one file under its file name, a missing path is fatal. -/
def resolveConfigFiles (sys : SysState) : List String → Except ResolveError (List ConfigResolvedFile)
  | [] => .ok []
  | p :: rest =>
      match sys.node p with
      | none => .error (.configFileNotFound p)
      | some (.dir entries) =>
          match resolveConfigFiles sys rest with
          | .ok more => .ok (entries.map (fun e => ⟨e.1, e.2⟩) ++ more)
          | .error e => .error e
      | some (.file content) =>
          match resolveConfigFiles sys rest with
          | .ok more => .ok (⟨fileName p, content⟩ :: more)
          | .error e => .error e

/-- Config group resolution (src/resolver.rs lines 19-48); the resolved
group name is namespaced as app name, dash, config name. -/
def resolveConfigs (sys : SysState) (app_name : String) :
    List ConfigSpec → Except ResolveError (List ConfigResolvedSpec)
  | [] => .ok []
  | c :: rest =>
      match resolveConfigFiles sys c.files with
      | .error e => .error e
      | .ok files =>
          match resolveConfigs sys app_name rest with
          | .ok more => .ok (⟨app_name ++ "-" ++ c.name, files⟩ :: more)
          | .error e => .error e

/-- Secret resolution (src/resolver.rs lines 50-70). -/
def resolveSecrets (sys : SysState) (app_name : String) :
    List DeploymentSecretSpec → Except ResolveError (List SecretResolvedSpec)
  | [] => .ok []
  | s :: rest =>
      let valE : Except ResolveError String :=
        match s.source with
        | .EnvVariable n =>
            match (sys.procEnv.find? (fun e => e.1 = n)).map (·.2) with
            | some v => .ok v
            | none => .error (.secretEnvNotSet n)
        | .FilePath p =>
            match sys.node p with
            | none => .error (.secretFileNotFound p)
            | some (.file content) => .ok content
            | some (.dir _) => .error (.secretReadFailed p)
        | .Embedded v => .ok v
      match valE with
      | .error e => .error e
      | .ok value =>
          match resolveSecrets sys app_name rest with
          | .ok more => .ok (⟨app_name ++ "-" ++ s.secret_name, value⟩ :: more)
          | .error e => .error e

/-- Public-service uniqueness check (src/resolver.rs lines 141-150): the
HashSet of claimed pairs is modelled as a list; inserting an already
present pair is fatal. -/
def insertPrefixes (service host : String) :
    List PrefixSpec → List (String × String) → Except ResolveError (List (String × String))
  | [], seen => .ok seen
  | p :: rest, seen =>
      let key := (host, p.value)
      if key ∈ seen then .error (.duplicateHostPrefix service host p.value)
      else insertPrefixes service host rest (key :: seen)

/-- Service config reference check (src/resolver.rs lines 164-175). -/
def resolveServiceConfigs (app_name svc_name : String) (resolved_configs : List ConfigResolvedSpec) :
    List ServiceConfigOption → Except ResolveError (List ServiceConfigOption)
  | [] => .ok []
  | sc :: rest =>
      let config_name := app_name ++ "-" ++ sc.config_name
      if resolved_configs.any (fun c => c.name = config_name) then
        match resolveServiceConfigs app_name svc_name resolved_configs rest with
        | .ok more => .ok (⟨config_name, sc.mount_path⟩ :: more)
        | .error e => .error e
      else .error (.serviceUndefinedConfig svc_name config_name)

/-- Service secret reference check (src/resolver.rs lines 177-188). -/
def resolveServiceSecrets (app_name svc_name : String) (resolved_secrets : List SecretResolvedSpec) :
    List ServiceSecret → Except ResolveError (List ServiceSecret)
  | [] => .ok []
  | sec :: rest =>
      let secret_name := app_name ++ "-" ++ sec.name
      if resolved_secrets.any (fun s => s.name = secret_name) then
        match resolveServiceSecrets app_name svc_name resolved_secrets rest with
        | .ok more => .ok (⟨secret_name, sec.mount⟩ :: more)
        | .error e => .error e
      else .error (.serviceUndefinedSecret svc_name secret_name)

/-- Deployment-override lookup for a service, from
`deployment.services.as_ref().and_then(get)`. -/
def deploymentServiceOpt (deployment : DeploymentSpec) (svc_name : String) :
    Option DeploymentServiceSpec :=
  deployment.services.bind (fun l => (l.find? (fun e => e.1 = svc_name)).map (·.2))

/-- Active variant name for a service (src/resolver.rs lines 84-93). -/
def effectiveVariantName (dso : Option DeploymentServiceSpec) : String :=
  match dso with
  | some ds => ds.variant.getD "default"
  | none => "default"

/-- Declared prefixes for a service (src/resolver.rs lines 84-93): only a
deployment override carries prefixes. -/
def effectivePrefixes (dso : Option DeploymentServiceSpec) : List PrefixSpec :=
  match dso with
  | some ds => ds.prefixes
  | none => []

/-- Effective host name for a service (src/resolver.rs lines 98-101). -/
def effectiveHostName (deployment : DeploymentSpec) (dso : Option DeploymentServiceSpec) : String :=
  match dso with
  | some ds => ds.host.getD deployment.primary_host
  | none => deployment.primary_host

/-- Host domain lookup (src/resolver.rs lines 103-113): the host name must
name a known ingress host with at least one domain. -/
def hostDomainFor (env_spec : DeploymentEnvironmentSpec) (host_name : String) :
    Except ResolveError String :=
  match (env_spec.ingress.hosts.find? (fun h => h.name = host_name)).bind
      (fun h => h.domain_names.head?) with
  | some d => .ok d
  | none => .error (.hostNotFound host_name)

/-- Per-service ports (src/resolver.rs lines 199-201): the override's ports
when an override exists, else the service's declared ports. -/
def effectivePorts (dso : Option DeploymentServiceSpec) (app_service : ServiceSpec) :
    List ServicePort :=
  match dso with
  | some ds => ds.ports
  | none => app_service.ports

/-- Body of the per-service loop of `resolve` (src/resolver.rs lines
78-202) for one service, threading the set of claimed host and prefix
pairs; Rust's early-return question mark operator is `Except.bind`. -/
def serviceStep (env_spec : DeploymentEnvironmentSpec) (app_spec : AppSpec)
    (deployment : DeploymentSpec) (resolved_configs : List ConfigResolvedSpec)
    (resolved_secrets : List SecretResolvedSpec) (app_service : ServiceSpec)
    (seen : List (String × String)) :
    Except ResolveError (ServiceResolvedSpec × List (String × String)) :=
  (hostDomainFor env_spec
      (effectiveHostName deployment (deploymentServiceOpt deployment app_service.name))).bind
    fun host_domain_name =>
  (resolveImage env_spec app_spec.version app_service
      (effectiveVariantName (deploymentServiceOpt deployment app_service.name))).bind
    fun image =>
  (if app_service.service_type = .Public then
      insertPrefixes app_service.name
        (effectiveHostName deployment (deploymentServiceOpt deployment app_service.name))
        (effectivePrefixes (deploymentServiceOpt deployment app_service.name)) seen
    else .ok seen).bind
    fun seen' =>
  (resolve_app_env_vars app_spec deployment.environment (some host_domain_name)).bind
    fun environment_variables =>
  (filter_service_env_vars app_service environment_variables).bind
    fun final_service_env_vars =>
  (resolve_app_env_vars app_spec
      (deployment.undockerized_environment.foldl add_unique_var deployment.environment)
      (some host_domain_name)).bind
    fun undockerized_variables =>
  (filter_service_env_vars app_service undockerized_variables).bind
    fun final_undockerized =>
  (resolveServiceConfigs app_spec.name app_service.name resolved_configs
      app_service.configs).bind
    fun service_configs =>
  (resolveServiceSecrets app_spec.name app_service.name resolved_secrets
      app_service.secrets).bind
    fun service_secrets =>
  .ok ({ full_name := app_spec.name ++ "-" ++ app_service.name,
         service_type := app_service.service_type,
         image := image,
         service_host := host_domain_name,
         environment_variables := final_service_env_vars,
         undockerized_environment_variables := final_undockerized,
         configs := service_configs,
         secrets := service_secrets,
         ports := effectivePorts (deploymentServiceOpt deployment app_service.name)
           app_service }, seen')

def serviceLoop (env_spec : DeploymentEnvironmentSpec) (app_spec : AppSpec)
    (deployment : DeploymentSpec) (resolved_configs : List ConfigResolvedSpec)
    (resolved_secrets : List SecretResolvedSpec) :
    List ServiceSpec → List (String × String) → Except ResolveError (List ServiceResolvedSpec)
  | [], _ => .ok []
  | svc :: rest, seen =>
      (serviceStep env_spec app_spec deployment resolved_configs resolved_secrets svc seen).bind
        fun rs1 =>
      (serviceLoop env_spec app_spec deployment resolved_configs resolved_secrets rest rs1.2).bind
        fun more =>
      .ok (rs1.1 :: more)

/-! ### Ingress derivation, from src/resolver.rs lines 214-279. -/

/-- Routing port choice (src/resolver.rs lines 227-233): 80 when a declared
port maps from external 80, else the first declared port's external value,
else 80. -/
def ingressPort (ds : DeploymentServiceSpec) : Nat :=
  if (ds.ports.find? (fun p => p.external = 80)).isSome then 80
  else match ds.ports.head? with
    | some p => p.external
    | none => 80

/-- Routing rules collected for one ingress host name (src/resolver.rs
lines 217-246): Public services with a deployment override bound to this
host contribute one rule per declared service prefix. -/
def serviceRulesFor (app_spec : AppSpec) (deployment : DeploymentSpec) (host_name : String) :
    List IngressToServiceRule :=
  app_spec.all_services.foldl (fun acc svc =>
    match deploymentServiceOpt deployment svc.name with
    | some ds =>
        if svc.service_type = .Public then
          if ds.host.getD deployment.primary_host = host_name then
            acc ++ ds.prefixes.map (fun p =>
              { service_name := app_spec.name ++ "-" ++ svc.name,
                port := ingressPort ds,
                prefix_value := p.value,
                strip_flag := p.strip })
          else acc
        else acc
    | none => acc) []

/-- Per-domain ingress rule derivation (src/resolver.rs lines 214-255): a
domain whose collected rule list is empty is omitted. -/
def ingressRules (env_spec : DeploymentEnvironmentSpec) (app_spec : AppSpec)
    (deployment : DeploymentSpec) : List IngressRule :=
  env_spec.ingress.hosts.foldl (fun acc hs =>
    hs.domain_names.foldl (fun acc2 domain =>
      let rules := serviceRulesFor app_spec deployment hs.name
      if rules.isEmpty then acc2
      else acc2 ++ [{ domain_name := domain, services := rules }]) acc) []

/-- TLS resolution (src/resolver.rs lines 257-272). -/
def resolveTls (env_spec : DeploymentEnvironmentSpec) : Option IngressTlsResolvedSpec :=
  env_spec.ingress.tls.map (fun tls_spec =>
    { secret := tls_spec.secret,
      letsencrypt := tls_spec.letsencrypt.map (fun le =>
        { server := le.server.getD "https://acme-v02.api.letsencrypt.org/directory",
          email := le.email }) })

/-- Deployment lookup (src/resolver.rs lines 15-17). -/
def findDeployment (env_spec : DeploymentEnvironmentSpec) (deployment_name : String) :
    Except ResolveError DeploymentSpec :=
  match env_spec.deployments.find? (fun d => d.name = deployment_name) with
  | some d => .ok d
  | none => .error (.deploymentNotFound deployment_name)

/-- Source function `resolve` (src/resolver.rs lines 10-286); the
filesystem and process environment it reads are passed explicitly. -/
def resolve (env_spec : DeploymentEnvironmentSpec) (app_spec : AppSpec)
    (deployment_name : String) (sys : SysState) : Except ResolveError EnvironmentResolvedSpec :=
  (findDeployment env_spec deployment_name).bind fun deployment =>
  (resolveConfigs sys app_spec.name deployment.configs).bind fun resolved_configs =>
  (resolveSecrets sys app_spec.name deployment.secrets).bind fun resolved_secrets =>
  (serviceLoop env_spec app_spec deployment resolved_configs resolved_secrets
      app_spec.all_services []).bind fun resolved_services =>
  .ok { ingress := { name := env_spec.ingress.name,
                     domains := env_spec.ingress.hosts.flatMap (fun h => h.domain_names),
                     rules := ingressRules env_spec app_spec deployment,
                     tls := resolveTls env_spec },
        current_deployment := { name := deployment.name,
                                application_name := deployment.application.name,
                                configs := resolved_configs,
                                secrets := resolved_secrets,
                                defaults := deployment.defaults,
                                services := resolved_services },
        env_type := env_spec.env_type }

/-! ### Validator, from src/validator.rs. -/

inductive ValidateError where
  | deploymentNotFound (name : String)
  | applicationMismatch (deployment expected actual : String)
  | versionMismatch
  | missingEnvVars (names : List String)
  | missingSecret (name : String)
  | missingConfig (name : String)
  | unknownService (name : String)
  | undefinedEnvSelector (service name : String)
deriving DecidableEq, Repr

/-- Secret presence check of `validate` (src/validator.rs lines 38-45). -/
def checkSecrets (provided : List String) : List AppSecretOption → Except ValidateError Unit
  | [] => .ok ()
  | s :: rest =>
      if s.secret_name ∈ provided then checkSecrets provided rest
      else .error (.missingSecret s.secret_name)

/-- Config presence check of `validate` (src/validator.rs lines 47-55). -/
def checkConfigs (provided : List String) : List ConfigSpec → Except ValidateError Unit
  | [] => .ok ()
  | c :: rest =>
      if c.name ∈ provided then checkConfigs provided rest
      else .error (.missingConfig c.name)

/-- Overridden-service existence check of `validate` (src/validator.rs
lines 57-70). -/
def checkDeploymentServices (available : List String) :
    List (String × DeploymentServiceSpec) → Except ValidateError Unit
  | [] => .ok ()
  | (n, _) :: rest =>
      if n ∈ available then checkDeploymentServices available rest
      else .error (.unknownService n)

/-- Simple-selector check for one service (src/validator.rs lines 85-91). -/
def checkSelectorList (svc_name : String) (defined : List String) :
    List ServiceEnvOption → Except ValidateError Unit
  | [] => .ok ()
  | .Simple n :: rest =>
      if n ∈ defined then checkSelectorList svc_name defined rest
      else .error (.undefinedEnvSelector svc_name n)
  | .All :: rest => checkSelectorList svc_name defined rest
  | .WithValue _ _ :: rest => checkSelectorList svc_name defined rest

/-- Simple-selector check over all services (src/validator.rs lines
84-92). -/
def checkServiceSelectors (defined : List String) : List ServiceSpec → Except ValidateError Unit
  | [] => .ok ()
  | svc :: rest =>
      match checkSelectorList svc.name defined svc.environment with
      | .ok _ => checkServiceSelectors defined rest
      | .error e => .error e

/-- The set of names a Simple selector is checked against
(src/validator.rs lines 72-82): external, relative and internal tier
declarations; optional tier declarations are not included. -/
def appDefinedEnvVars (app_spec : AppSpec) : List String :=
  app_spec.environment.external.map (fun e => e.name)
    ++ app_spec.environment.relative.map (fun r => r.name)
    ++ app_spec.environment.internal.map (fun i => i.name)

/-- Source function `validate` (src/validator.rs lines 5-95). -/
def validate (env_spec : DeploymentEnvironmentSpec) (app_spec : AppSpec) (env_name : String) :
    Except ValidateError Unit :=
  match env_spec.deployments.find? (fun d => d.name = env_name) with
  | none => .error (.deploymentNotFound env_name)
  | some deployment =>
    if deployment.application.name ≠ app_spec.name then
      .error (.applicationMismatch env_name deployment.application.name app_spec.name)
    else
      let versionOk := match deployment.application.version with
        | some req => req app_spec.version
        | none => true
      if versionOk = false then .error .versionMismatch
      else
        let provided_env_vars := deployment.environment.map (fun e => e.name)
        let missing_env_vars := (app_spec.environment.external.filter
          (fun e => !(provided_env_vars.contains e.name) && e.default.isNone)).map (fun e => e.name)
        if missing_env_vars ≠ [] then .error (.missingEnvVars missing_env_vars)
        else
          match checkSecrets (deployment.secrets.map (fun (s : DeploymentSecretSpec) => s.secret_name)) app_spec.secrets with
          | .error e => .error e
          | .ok _ =>
            match checkConfigs (deployment.configs.map (fun c => c.name)) app_spec.configs with
            | .error e => .error e
            | .ok _ =>
              match (match deployment.services with
                     | some svcs =>
                         checkDeploymentServices (app_spec.all_services.map (fun (s : ServiceSpec) => s.name)) svcs
                     | none => .ok ()) with
              | .error e => .error e
              | .ok _ => checkServiceSelectors (appDefinedEnvVars app_spec) app_spec.all_services

/-! ### Specification-side definitions.

These are written from the specification's words (not from the source) and
are compared with the source embeddings by the refinement theorems below. -/

/-- Token of a template: a literal character or a variable reference. -/
inductive TemplateToken where
  | lit (c : Char)
  | ref (name : String)
deriving DecidableEq, Repr

/-- Spec-side scan: read the template left to right into tokens, turning
each occurrence of a dollar-brace reference into a `ref` token whose name
is the text up to the first closing brace after it; a reference with no
closing brace is malformed. -/
def scanTemplate : InterpState → List Char → Option (List TemplateToken)
  | .plain, [] => some []
  | .plain, [c] => some [.lit c]
  | .plain, c1 :: c2 :: rest =>
      if c1 = '$' ∧ c2 = '{' then scanTemplate (.inRef []) rest
      else match scanTemplate .plain (c2 :: rest) with
        | some ts => some (.lit c1 :: ts)
        | none => none
  | .inRef _, [] => none
  | .inRef acc, c :: rest =>
      if c = '}' then
        match scanTemplate .plain rest with
        | some ts => some (.ref (String.mk acc) :: ts)
        | none => none
      else scanTemplate (.inRef (acc ++ [c])) rest

/-- Spec-side substitution: replace each reference token with the
corresponding value from the supplied set; a name not present in the set
is an undefined reference.  Substituted values are spliced in verbatim,
never re-scanned. -/
def substituteTokens (vars : List EnvVariable) : List TemplateToken → Except ResolveError (List Char)
  | [] => .ok []
  | .lit c :: ts =>
      match substituteTokens vars ts with
      | .ok tail => .ok (c :: tail)
      | .error e => .error e
  | .ref n :: ts =>
      match vars.find? (fun v => v.name = n) with
      | some v =>
          match substituteTokens vars ts with
          | .ok tail => .ok (v.value.data ++ tail)
          | .error e => .error e
      | none => .error (.undefinedVariable n)

/-- Spec-side interpolation contract: scan, then substitute. -/
def interpolateBySpec (input : String) (vars : List EnvVariable) : Except ResolveError String :=
  match scanTemplate .plain input.data with
  | none => .error .invalidVariableReference
  | some ts =>
      match substituteTokens vars ts with
      | .ok cs => .ok (String.mk cs)
      | .error e => .error e

/-- True when the character list contains a dollar-brace reference
opener. -/
def hasRef : List Char → Bool
  | [] => false
  | [_] => false
  | c1 :: c2 :: rest =>
      if c1 = '$' ∧ c2 = '{' then true else hasRef (c2 :: rest)

/-- Names of an environment variable list. -/
def envNames (l : List EnvVariable) : List String :=
  l.map (fun v => v.name)

/-- All names declared across the four tiers, in tier order. -/
def declaredTierNames (e : AppEnvironment) : List String :=
  e.external.map (fun x => x.name) ++ e.optional.map (fun x => x.name)
    ++ e.relative.map (fun x => x.name) ++ e.internal.map (fun x => x.name)

/-- Spec-side external tier: each name takes the deployment-supplied value
or its default, fatal if neither exists. -/
def specExternalTier (deployment_values : List EnvVariable) :
    List ExternalEnvVariable → Except ResolveError (List EnvVariable)
  | [] => .ok []
  | e :: rest =>
      let val := match deployment_values.find? (fun d => d.name = e.name) with
        | some d => some d.value
        | none => e.default
      match val with
      | some v =>
          match specExternalTier deployment_values rest with
          | .ok l => .ok (⟨e.name, v⟩ :: l)
          | .error err => .error err
      | none => .error (.missingExternal e.name)

/-- Spec-side optional tier: a name is included only when the deployment
supplies it. -/
def specOptionalTier (deployment_values : List EnvVariable) (l : List OptionalEnvVariable) :
    List EnvVariable :=
  l.filterMap (fun o =>
    (deployment_values.find? (fun d => d.name = o.name)).map (fun d => ⟨o.name, d.value⟩))

/-- Spec-side relative tier: each name resolves to an https URL of the host
domain and the relative value, interpolated against the variables
accumulated so far, which it is then appended to. -/
def specRelativeTier (host : String) :
    List RelativeEnvVariable → List EnvVariable → Except ResolveError (List EnvVariable)
  | [], acc => .ok acc
  | r :: rest, acc =>
      match resolve_variable_in_string ("https://" ++ host ++ r.relative_value) acc with
      | .ok value => specRelativeTier host rest (acc ++ [⟨r.name, value⟩])
      | .error e => .error e

/-- Spec-side internal tier: each value is interpolated against the
variables accumulated so far, then appended. -/
def specInternalTier : List InternalEnvVariable → List EnvVariable → Except ResolveError (List EnvVariable)
  | [], acc => .ok acc
  | i :: rest, acc =>
      match resolve_variable_in_string i.value acc with
      | .ok value => specInternalTier rest (acc ++ [⟨i.name, value⟩])
      | .error e => .error e

/-- Spec-side full variable set: the four tiers in fixed order, each later
tier appended after the earlier ones. -/
def specTieredEnvVars (app_env : AppEnvironment) (deployment_values : List EnvVariable)
    (host : String) : Except ResolveError (List EnvVariable) :=
  match specExternalTier deployment_values app_env.external with
  | .error e => .error e
  | .ok ext =>
      match specRelativeTier host app_env.relative
          (ext ++ specOptionalTier deployment_values app_env.optional) with
      | .error e => .error e
      | .ok withRel => specInternalTier app_env.internal withRel

/-- Amended image resolution, written from the corrected claim: select the
variant; an application's own service gets the version tag (latest when
Local) and then, whatever the environment type, its first path segment is
looked up in the registry map — a hit prefixes the image, a miss is fatal
except when Local; an image with no slash and every extra service image
pass through unchanged. -/
def amendedImageSpec (env_spec : DeploymentEnvironmentSpec) (app_version : String)
    (app_service : ServiceSpec) (variant_name : String) : Except ResolveError String :=
  match (app_service.image_variants.find? (fun v => v.variant_name = variant_name)).map (·.image) with
  | none => .error (.imageVariantNotFound variant_name app_service.name)
  | some img =>
      if app_service.is_app_service then
        let tagged := if env_spec.env_type = .Local then img ++ ":latest"
          else img ++ ":" ++ app_version
        match splitOnceChars '/' tagged.data with
        | none => .ok tagged
        | some (ns, _) =>
            let nsStr := String.mk ns
            match (env_spec.registry.find? (fun p => p.1 = nsStr)).map (·.2) with
            | some host => .ok (stripTrailingSlash host ++ "/" ++ tagged)
            | none =>
                if env_spec.env_type = .Local then .ok tagged
                else .error (.registryNamespaceNotFound nsStr)
      else .ok img

/-- Host and prefix pairs claimed by one service: only a Public service
with a deployment override claims pairs, one per declared prefix, under
its effective host name. -/
def servicePairs (deployment : DeploymentSpec) (svc : ServiceSpec) : List (String × String) :=
  if svc.service_type = .Public then
    match deploymentServiceOpt deployment svc.name with
    | some ds => ds.prefixes.map (fun p => (ds.host.getD deployment.primary_host, p.value))
    | none => []
  else []

/-- All host and prefix pairs claimed by Public services, in processing
order. -/
def claimedPairs (app_spec : AppSpec) (deployment : DeploymentSpec) : List (String × String) :=
  app_spec.all_services.flatMap (servicePairs deployment)

/-- Spec-side routing port: 80 when some declared port maps from external
80, else the first declared port's external value, else 80. -/
def specPort (ds : DeploymentServiceSpec) : Nat :=
  if ds.ports.any (fun p => p.external = 80) then 80
  else match ds.ports with
    | [] => 80
    | p :: _ => p.external

/-- Spec-side rule collection for one host: every Public service bound to
the host by override or default emits one rule per declared prefix. -/
def specRulesFor (app_spec : AppSpec) (deployment : DeploymentSpec) (host_name : String) :
    List IngressToServiceRule :=
  app_spec.all_services.flatMap (fun svc =>
    match deploymentServiceOpt deployment svc.name with
    | some ds =>
        if svc.service_type = .Public ∧ ds.host.getD deployment.primary_host = host_name then
          ds.prefixes.map (fun p =>
            { service_name := app_spec.name ++ "-" ++ svc.name,
              port := specPort ds,
              prefix_value := p.value,
              strip_flag := p.strip })
        else []
    | none => [])

/-- Spec-side ingress derivation: one entry per host domain carrying that
host's collected rules; a domain whose rule list is empty is omitted. -/
def specIngressRules (env_spec : DeploymentEnvironmentSpec) (app_spec : AppSpec)
    (deployment : DeploymentSpec) : List IngressRule :=
  (env_spec.ingress.hosts.flatMap (fun hs => hs.domain_names.map (fun d => (hs.name, d)))).filterMap
    (fun hd =>
      let rules := specRulesFor app_spec deployment hd.1
      if rules = [] then none else some { domain_name := hd.2, services := rules })

/-- True exactly for the duplicate host and prefix error. -/
def ResolveError.isDupPair : ResolveError → Bool
  | .duplicateHostPrefix _ _ _ => true
  | _ => false

/-! ### Theorems

Helper lemmas come first, then one named theorem per claim, each with its
witness or counterexample where applicable. -/

lemma interpGo_toOption (vars : List EnvVariable) : ∀ (st : InterpState) (l : List Char),
    (interpGo vars st l).toOption =
      (scanTemplate st l).bind (fun ts => (substituteTokens vars ts).toOption) := by
  intro st l
  induction st, l using interpGo.induct vars
  case case1 =>
    simp [interpGo, scanTemplate, substituteTokens, Except.toOption]
  case case2 c =>
    simp [interpGo, scanTemplate, substituteTokens, Except.toOption]
  case case3 c1 c2 rest hg ih =>
    simp only [interpGo, scanTemplate, if_pos hg]
    exact ih
  case case4 c1 c2 rest hg tail hok ih =>
    rw [hok] at ih
    simp only [interpGo, scanTemplate, if_neg hg, hok, Except.toOption]
    cases hscan : scanTemplate InterpState.plain (c2 :: rest) with
    | none => rw [hscan] at ih; simp [Except.toOption] at ih
    | some ts =>
        rw [hscan] at ih
        simp only [Option.some_bind] at ih ⊢
        cases hsub : substituteTokens vars ts with
        | ok cs =>
            rw [hsub] at ih
            simp only [Except.toOption] at ih
            cases ih
            simp [substituteTokens, hsub, Except.toOption]
        | error e =>
            rw [hsub] at ih
            simp [Except.toOption] at ih
  case case5 c1 c2 rest hg e herr ih =>
    rw [herr] at ih
    simp only [interpGo, scanTemplate, if_neg hg, herr, Except.toOption]
    cases hscan : scanTemplate InterpState.plain (c2 :: rest) with
    | none => simp
    | some ts =>
        rw [hscan] at ih
        simp only [Except.toOption, Option.some_bind] at ih ⊢
        cases hsub : substituteTokens vars ts with
        | ok cs => rw [hsub] at ih; simp at ih
        | error e2 => simp [substituteTokens, hsub]
  case case6 acc =>
    simp [interpGo, scanTemplate, Except.toOption]
  case case7 acc rest v hfind tail hok ih =>
    rw [hok] at ih
    simp only [interpGo, scanTemplate, if_pos rfl, hfind, hok, Except.toOption]
    cases hscan : scanTemplate InterpState.plain rest with
    | none => rw [hscan] at ih; simp [Except.toOption] at ih
    | some ts =>
        rw [hscan] at ih
        simp only [Option.some_bind] at ih ⊢
        cases hsub : substituteTokens vars ts with
        | ok cs =>
            rw [hsub] at ih
            simp only [Except.toOption] at ih
            cases ih
            simp [substituteTokens, hfind, hsub, Except.toOption]
        | error e =>
            rw [hsub] at ih
            simp [Except.toOption] at ih
  case case8 acc rest v hfind e herr ih =>
    rw [herr] at ih
    simp only [interpGo, scanTemplate, if_pos rfl, hfind, herr, Except.toOption]
    cases hscan : scanTemplate InterpState.plain rest with
    | none => simp
    | some ts =>
        rw [hscan] at ih
        simp only [Except.toOption, Option.some_bind] at ih ⊢
        cases hsub : substituteTokens vars ts with
        | ok cs => rw [hsub] at ih; simp at ih
        | error e2 => simp [substituteTokens, hfind, hsub]
  case case9 acc rest hfind =>
    simp only [interpGo, scanTemplate, if_pos rfl, hfind, Except.toOption]
    cases hscan : scanTemplate InterpState.plain rest with
    | none => simp [hscan]
    | some ts => simp [hscan, substituteTokens, hfind, Except.toOption]
  case case10 acc c rest hne ih =>
    simp only [interpGo, scanTemplate, if_neg hne]
    exact ih

lemma substituteTokens_none (vars : List EnvVariable) : ∀ (ts : List TemplateToken),
    (substituteTokens vars ts).toOption = none ↔
      ∃ n, TemplateToken.ref n ∈ ts ∧ vars.find? (fun v => v.name = n) = none := by
  intro ts
  induction ts with
  | nil => simp [substituteTokens, Except.toOption]
  | cons t rest ih =>
    cases t with
    | lit c =>
      cases hsub : substituteTokens vars rest with
      | ok cs =>
          have hL : substituteTokens vars (TemplateToken.lit c :: rest) = .ok (c :: cs) := by
            simp only [substituteTokens, hsub]
          rw [hL]; rw [hsub] at ih
          simp only [Except.toOption] at ih ⊢
          constructor
          · intro h; simp at h
          · rintro ⟨m, hm, hfm⟩
            rcases List.mem_cons.mp hm with h1 | h1
            · cases h1
            · have := ih.mpr ⟨m, h1, hfm⟩; simp at this
      | error e =>
          have hL : substituteTokens vars (TemplateToken.lit c :: rest) = .error e := by
            simp only [substituteTokens, hsub]
          rw [hL]; rw [hsub] at ih
          simp only [Except.toOption] at ih ⊢
          constructor
          · intro _
            obtain ⟨m, hm, hfm⟩ := ih.mp trivial
            exact ⟨m, List.mem_cons_of_mem _ hm, hfm⟩
          · intro _; trivial
    | ref n =>
      cases hfind : vars.find? (fun v => v.name = n) with
      | some v =>
          cases hsub : substituteTokens vars rest with
          | ok cs =>
              have hL : substituteTokens vars (TemplateToken.ref n :: rest)
                  = .ok (v.value.data ++ cs) := by
                simp only [substituteTokens, hfind, hsub]
              rw [hL]; rw [hsub] at ih
              simp only [Except.toOption] at ih ⊢
              constructor
              · intro h; simp at h
              · rintro ⟨m, hm, hfm⟩
                rcases List.mem_cons.mp hm with h1 | h1
                · injection h1 with h2; subst h2; rw [hfind] at hfm; cases hfm
                · have := ih.mpr ⟨m, h1, hfm⟩; simp at this
          | error e =>
              have hL : substituteTokens vars (TemplateToken.ref n :: rest) = .error e := by
                simp only [substituteTokens, hfind, hsub]
              rw [hL]; rw [hsub] at ih
              simp only [Except.toOption] at ih ⊢
              constructor
              · intro _
                obtain ⟨m, hm, hfm⟩ := ih.mp trivial
                exact ⟨m, List.mem_cons_of_mem _ hm, hfm⟩
              · intro _; trivial
      | none =>
          have hL : substituteTokens vars (TemplateToken.ref n :: rest)
              = .error (.undefinedVariable n) := by
            simp only [substituteTokens, hfind]
          rw [hL]
          simp only [Except.toOption]
          constructor
          · intro _; exact ⟨n, List.mem_cons_self _ _, hfind⟩
          · intro _; trivial

lemma rvs_toOption (input : String) (vars : List EnvVariable) :
    (resolve_variable_in_string input vars).toOption =
      ((interpGo vars .plain input.data).toOption).map String.mk := by
  unfold resolve_variable_in_string
  cases interpGo vars .plain input.data <;> simp [Except.toOption]

lemma ibs_toOption (input : String) (vars : List EnvVariable) :
    (interpolateBySpec input vars).toOption =
      ((scanTemplate .plain input.data).bind
        (fun ts => (substituteTokens vars ts).toOption)).map String.mk := by
  unfold interpolateBySpec
  cases hscan : scanTemplate .plain input.data with
  | none => simp [Except.toOption]
  | some ts =>
      simp only [hscan]
      cases hsub : substituteTokens vars ts <;> simp [hsub, Except.toOption]

/-- C4: interpolation scans the template left to right, replaces each
dollar-brace reference with the corresponding value from the supplied set
and returns the fully substituted string; it fails exactly when some
reference opener has no closing brace after it (the scan fails) or when a
referenced name is not present in the supplied set. -/
theorem C4_interpolation : ∀ (input : String) (vars : List EnvVariable),
    (resolve_variable_in_string input vars).toOption = (interpolateBySpec input vars).toOption
    ∧ (scanTemplate .plain input.data = none →
        (resolve_variable_in_string input vars).toOption = none)
    ∧ (∀ ts, scanTemplate .plain input.data = some ts →
        ((resolve_variable_in_string input vars).toOption = none ↔
          ∃ n, TemplateToken.ref n ∈ ts ∧ vars.find? (fun v => v.name = n) = none)) := by
  intro input vars
  refine ⟨?_, ?_, ?_⟩
  · rw [rvs_toOption, ibs_toOption, interpGo_toOption]
  · intro hscan
    rw [rvs_toOption, interpGo_toOption, hscan]
    simp
  · intro ts hscan
    rw [rvs_toOption, interpGo_toOption, hscan]
    simp only [Option.some_bind, Option.map_eq_none']
    exact substituteTokens_none vars ts

theorem C4_witness :
    (resolve_variable_in_string "a$\x7bB" []).toOption = none
    ∧ ((resolve_variable_in_string "${B}" []).toOption = none ↔
        ∃ n, TemplateToken.ref n ∈ [TemplateToken.ref "B"]
          ∧ ([] : List EnvVariable).find? (fun v => v.name = n) = none) := by
  constructor
  · exact (C4_interpolation "a$\x7bB" []).2.1 (by rfl)
  · exact (C4_interpolation "${B}" []).2.2 [TemplateToken.ref "B"] (by rfl)

lemma interpGo_noRef (vars : List EnvVariable) : ∀ (l : List Char),
    hasRef l = false → interpGo vars .plain l = .ok l := by
  intro l
  induction l using hasRef.induct with
  | case1 => intro _; rfl
  | case2 c => intro _; rfl
  | case3 c1 c2 rest hg => intro h; rw [hasRef, if_pos hg] at h; cases h
  | case4 c1 c2 rest hg ih =>
      intro h
      rw [hasRef, if_neg hg] at h
      rw [interpGo, if_neg hg, ih h]

/-- C5: a substituted value is never re-interpolated even if it contains a
reference opener; a template with no reference opener is returned
unchanged; and interpolation of the same template against the same set is
deterministic. -/
theorem C5_no_rescan : ∀ (vars : List EnvVariable) (t v : String),
    (hasRef t.data = false → resolve_variable_in_string t vars = .ok t)
    ∧ resolve_variable_in_string "${A}" [⟨"A", v⟩] = .ok v
    ∧ resolve_variable_in_string t vars = resolve_variable_in_string t vars := by
  intro vars t v
  refine ⟨?_, ?_, rfl⟩
  · intro h
    unfold resolve_variable_in_string
    rw [interpGo_noRef vars t.data h]
  · have h1 : resolve_variable_in_string "${A}" [⟨"A", v⟩]
        = .ok (String.mk (v.data ++ [])) := rfl
    rw [h1]
    simp

theorem C5_witness :
    resolve_variable_in_string "hello" [] = .ok "hello"
    ∧ resolve_variable_in_string "${A}" [⟨"A", "${B}"⟩] = .ok "${B}" :=
  ⟨(C5_no_rescan [] "hello" "x").1 (by rfl), (C5_no_rescan [] "x" "${B}").2.1⟩

lemma add_unique_var_not_mem (vars : List EnvVariable) (var : EnvVariable)
    (h : var.name ∉ envNames vars) : add_unique_var vars var = vars ++ [var] := by
  induction vars with
  | nil => rfl
  | cons v rest ih =>
      simp only [envNames, List.map_cons, List.mem_cons] at h
      push_neg at h
      rw [add_unique_var, if_neg (fun he => h.1 (he.symm)), ih]
      · rfl
      · simpa [envNames] using h.2

lemma add_unique_var_replace (pre post : List EnvVariable) (x var : EnvVariable)
    (hx : x.name = var.name) (hpre : var.name ∉ envNames pre) :
    add_unique_var (pre ++ x :: post) var = pre ++ { x with value := var.value } :: post := by
  induction pre with
  | nil => simp [add_unique_var, hx]
  | cons p pre' ih =>
      simp only [envNames, List.map_cons, List.mem_cons] at hpre
      push_neg at hpre
      rw [List.cons_append, add_unique_var, if_neg (fun he => hpre.1 (he.symm)),
        ih (by simpa [envNames] using hpre.2)]
      rfl

lemma envNames_cons (v : EnvVariable) (l : List EnvVariable) :
    envNames (v :: l) = v.name :: envNames l := rfl

lemma envNames_append (a b : List EnvVariable) :
    envNames (a ++ b) = envNames a ++ envNames b := by
  simp [envNames]

lemma envNames_add_unique_var (vars : List EnvVariable) (var : EnvVariable) :
    envNames (add_unique_var vars var) =
      if var.name ∈ envNames vars then envNames vars else envNames vars ++ [var.name] := by
  induction vars with
  | nil => simp [add_unique_var, envNames]
  | cons v rest ih =>
      by_cases hv : v.name = var.name
      · have hmem : var.name ∈ envNames (v :: rest) := by
          rw [envNames_cons, hv]; exact List.mem_cons_self _ _
        rw [add_unique_var, if_pos hv, if_pos hmem, envNames_cons, envNames_cons]
      · have hne : var.name ≠ v.name := fun h => hv h.symm
        rw [add_unique_var, if_neg hv, envNames_cons, ih]
        by_cases hm : var.name ∈ envNames rest
        · rw [if_pos hm, if_pos (show var.name ∈ envNames (v :: rest) by
            rw [envNames_cons]; exact List.mem_cons_of_mem _ hm), envNames_cons]
        · rw [if_neg hm, if_neg (show var.name ∉ envNames (v :: rest) by
            rw [envNames_cons]
            intro hc
            rcases List.mem_cons.mp hc with h | h
            exacts [hne h, hm h]), envNames_cons, List.cons_append]

lemma nodup_add_unique_var (vars : List EnvVariable) (var : EnvVariable)
    (h : (envNames vars).Nodup) : (envNames (add_unique_var vars var)).Nodup := by
  rw [envNames_add_unique_var]
  by_cases hm : var.name ∈ envNames vars
  · simpa [hm] using h
  · simp only [hm, if_false]
    simp [List.nodup_append, h, hm]

lemma nodup_foldl_add_unique_var (l : List EnvVariable) : ∀ (init : List EnvVariable),
    (envNames init).Nodup → (envNames (l.foldl add_unique_var init)).Nodup := by
  induction l with
  | nil => intro init h; simpa using h
  | cons x rest ih =>
      intro init h
      simpa using ih (add_unique_var init x) (nodup_add_unique_var init x h)

lemma externalPass_nodup (dv : List EnvVariable) : ∀ (ext : List ExternalEnvVariable)
    (acc r : List EnvVariable), externalPass dv ext acc = .ok r →
    (envNames acc).Nodup → (envNames r).Nodup := by
  intro ext
  induction ext with
  | nil => intro acc r h hn; cases h; exact hn
  | cons e rest ih =>
      intro acc r h hn
      rw [externalPass] at h
      cases hval : (match dv.find? (fun d => d.name = e.name) with
        | some d => some d.value
        | none => e.default) with
      | some v =>
          rw [hval] at h
          exact ih _ r h (nodup_add_unique_var _ _ hn)
      | none => rw [hval] at h; cases h

lemma optionalPass_nodup (dv : List EnvVariable) : ∀ (l : List OptionalEnvVariable)
    (acc : List EnvVariable), (envNames acc).Nodup →
    (envNames (optionalPass dv l acc)).Nodup := by
  intro l
  induction l with
  | nil => intro acc h; exact h
  | cons o rest ih =>
      intro acc h
      rw [optionalPass]
      cases dv.find? (fun d => d.name = o.name) with
      | some d => exact ih _ (nodup_add_unique_var _ _ h)
      | none => exact ih _ h

lemma relativePass_nodup (host : Option String) : ∀ (l : List RelativeEnvVariable)
    (acc r : List EnvVariable), relativePass host l acc = .ok r →
    (envNames acc).Nodup → (envNames r).Nodup := by
  intro l
  induction l with
  | nil => intro acc r h hn; cases h; exact hn
  | cons x rest ih =>
      intro acc r h hn
      simp only [relativePass] at h
      cases host with
      | some hh =>
          dsimp only at h
          cases hv : resolve_variable_in_string ("https://" ++ hh ++ x.relative_value) acc with
          | ok value =>
              rw [hv] at h
              exact ih _ r h (nodup_add_unique_var _ _ hn)
          | error e => rw [hv] at h; cases h
      | none =>
          dsimp only at h
          exact ih _ r h hn

lemma internalPass_nodup : ∀ (l : List InternalEnvVariable)
    (acc r : List EnvVariable), internalPass l acc = .ok r →
    (envNames acc).Nodup → (envNames r).Nodup := by
  intro l
  induction l with
  | nil => intro acc r h hn; cases h; exact hn
  | cons x rest ih =>
      intro acc r h hn
      rw [internalPass] at h
      cases hv : resolve_variable_in_string x.value acc with
      | ok value =>
          rw [hv] at h
          exact ih _ r h (nodup_add_unique_var _ _ hn)
      | error e => rw [hv] at h; cases h

lemma resolve_app_env_vars_nodup (app_spec : AppSpec) (dv : List EnvVariable)
    (host : Option String) (r : List EnvVariable)
    (h : resolve_app_env_vars app_spec dv host = .ok r) : (envNames r).Nodup := by
  rw [resolve_app_env_vars] at h
  cases h1 : externalPass dv app_spec.environment.external [] with
  | error e => rw [h1] at h; cases h
  | ok acc1 =>
      rw [h1] at h
      simp only at h
      cases h2 : relativePass host app_spec.environment.relative
          (optionalPass dv app_spec.environment.optional acc1) with
      | error e => rw [h2] at h; cases h
      | ok acc3 =>
          rw [h2] at h
          have hn1 : (envNames acc1).Nodup :=
            externalPass_nodup dv _ [] acc1 h1 (by simp [envNames])
          have hn2 := optionalPass_nodup dv app_spec.environment.optional acc1 hn1
          have hn3 := relativePass_nodup host _ _ acc3 h2 hn2
          exact internalPass_nodup _ _ r h hn3

lemma filterPass_nodup (svc_name : String) (all : List EnvVariable) :
    ∀ (opts : List ServiceEnvOption) (acc r : List EnvVariable),
    filterPass svc_name all opts acc = .ok r →
    (envNames acc).Nodup → (envNames r).Nodup := by
  intro opts
  induction opts with
  | nil => intro acc r h hn; cases h; exact hn
  | cons o rest ih =>
      intro acc r h hn
      cases o with
      | All =>
          rw [filterPass] at h
          exact ih _ r h (nodup_foldl_add_unique_var all acc hn)
      | Simple n =>
          rw [filterPass] at h
          cases hf : all.find? (fun e => e.name = n) with
          | some v => rw [hf] at h; exact ih _ r h (nodup_add_unique_var _ _ hn)
          | none => rw [hf] at h; cases h
      | WithValue k v =>
          rw [filterPass] at h
          cases hv : resolve_variable_in_string v all with
          | ok value => rw [hv] at h; exact ih _ r h (nodup_add_unique_var _ _ hn)
          | error e => rw [hv] at h; cases h

/-- C10: the accumulator function replaces in place (keeping the first
occurrence's position) when the name is already present and appends
otherwise, so the full tier set and every service's filtered set have
pairwise-distinct names. -/
theorem C10_unique_names :
    (∀ (vars : List EnvVariable) (var : EnvVariable),
        var.name ∉ envNames vars → add_unique_var vars var = vars ++ [var])
    ∧ (∀ (pre post : List EnvVariable) (x var : EnvVariable),
        x.name = var.name → var.name ∉ envNames pre →
        add_unique_var (pre ++ x :: post) var = pre ++ { x with value := var.value } :: post)
    ∧ (∀ (app_spec : AppSpec) (dv : List EnvVariable) (host : Option String)
        (r : List EnvVariable),
        resolve_app_env_vars app_spec dv host = .ok r → (envNames r).Nodup)
    ∧ (∀ (svc : ServiceSpec) (all_env_vars r : List EnvVariable),
        filter_service_env_vars svc all_env_vars = .ok r → (envNames r).Nodup) :=
  ⟨add_unique_var_not_mem, add_unique_var_replace, resolve_app_env_vars_nodup,
    fun svc all r h => filterPass_nodup svc.name all svc.environment [] r h (by simp [envNames])⟩

theorem C10_witness :
    add_unique_var [⟨"A", "1"⟩] ⟨"B", "2"⟩ = [⟨"A", "1"⟩, ⟨"B", "2"⟩]
    ∧ add_unique_var ([⟨"A", "1"⟩] ++ ⟨"B", "2"⟩ :: []) ⟨"B", "3"⟩
        = [⟨"A", "1"⟩] ++ ⟨"B", "3"⟩ :: []
    ∧ (envNames [(⟨"E", "v"⟩ : EnvVariable)]).Nodup := by
  refine ⟨C10_unique_names.1 [⟨"A", "1"⟩] ⟨"B", "2"⟩ (by decide), ?_, ?_⟩
  · exact C10_unique_names.2.1 [⟨"A", "1"⟩] [] ⟨"B", "2"⟩ ⟨"B", "3"⟩ rfl (by decide)
  · exact C10_unique_names.2.2.1
      { name := "web", version := "1.2.3",
        environment := { external := [⟨"E", none⟩], optional := [], relative := [],
                         internal := [] },
        app_services := [], extra_services := [], configs := [], secrets := [] }
      [⟨"E", "v"⟩] none [⟨"E", "v"⟩] (by rfl)

/-- C3 counterexample: an external entry whose default references an
internal name does not fail — the default is carried through literally,
contradicting the claim that resolution fails with an undefined-reference
error. -/
theorem C3_counterexample :
    resolve_app_env_vars
      { name := "web", version := "1.2.3",
        environment := { external := [⟨"E", some "${I}"⟩], optional := [], relative := [],
                         internal := [⟨"I", "x"⟩] },
        app_services := [], extra_services := [], configs := [], secrets := [] }
      [] none = .ok [⟨"E", "${I}"⟩, ⟨"I", "x"⟩] := rfl

/-- C3 amended: an internal entry referencing an external name resolves to
that external variable's value; an external entry's default, however, is
never interpolated — a default referencing an internal name is carried
through literally, and resolution succeeds rather than failing. -/
theorem C3_amended : ∀ (v d : String),
    resolve_app_env_vars
      { name := "web", version := "1.2.3",
        environment := { external := [⟨"E", none⟩], optional := [], relative := [],
                         internal := [⟨"I", "${E}"⟩] },
        app_services := [], extra_services := [], configs := [], secrets := [] }
      [⟨"E", v⟩] none = .ok [⟨"E", v⟩, ⟨"I", v⟩]
    ∧ resolve_app_env_vars
      { name := "web", version := "1.2.3",
        environment := { external := [⟨"E", some d⟩], optional := [], relative := [],
                         internal := [⟨"I", "x"⟩] },
        app_services := [], extra_services := [], configs := [], secrets := [] }
      [] none = .ok [⟨"E", d⟩, ⟨"I", "x"⟩] := by
  intro v d
  constructor
  · have h1 : resolve_app_env_vars
        { name := "web", version := "1.2.3",
          environment := { external := [⟨"E", none⟩], optional := [], relative := [],
                           internal := [⟨"I", "${E}"⟩] },
          app_services := [], extra_services := [], configs := [], secrets := [] }
        [⟨"E", v⟩] none = .ok [⟨"E", v⟩, ⟨"I", String.mk (v.data ++ [])⟩] := rfl
    rw [h1]
    cases v with
    | mk data => simp
  · rfl

lemma checkSelectorList_ok (svc_name : String) (defined : List String) :
    ∀ (opts : List ServiceEnvOption), checkSelectorList svc_name defined opts = .ok () →
    ∀ n, ServiceEnvOption.Simple n ∈ opts → n ∈ defined := by
  intro opts
  induction opts with
  | nil => intro _ n hn; cases hn
  | cons o rest ih =>
      intro h n hn
      rcases List.mem_cons.mp hn with h1 | h1
      · subst h1
        rw [checkSelectorList] at h
        by_cases hd : n ∈ defined
        · exact hd
        · rw [if_neg hd] at h; cases h
      · cases o with
        | Simple m =>
            rw [checkSelectorList] at h
            by_cases hd : m ∈ defined
            · rw [if_pos hd] at h; exact ih h n h1
            · rw [if_neg hd] at h; cases h
        | All => rw [checkSelectorList] at h; exact ih h n h1
        | WithValue k val => rw [checkSelectorList] at h; exact ih h n h1

lemma checkServiceSelectors_ok (defined : List String) :
    ∀ (svcs : List ServiceSpec), checkServiceSelectors defined svcs = .ok () →
    ∀ svc ∈ svcs, ∀ n, ServiceEnvOption.Simple n ∈ svc.environment → n ∈ defined := by
  intro svcs
  induction svcs with
  | nil => intro _ svc hsvc; cases hsvc
  | cons s rest ih =>
      intro h svc hsvc n hn
      rw [checkServiceSelectors] at h
      cases hc : checkSelectorList s.name defined s.environment with
      | ok u =>
          rw [hc] at h
          rcases List.mem_cons.mp hsvc with h1 | h1
          · subst h1; exact checkSelectorList_ok svc.name defined svc.environment (by cases u; exact hc) n hn
          · exact ih h svc h1 n hn
      | error e => rw [hc] at h; cases h

lemma validate_ok_selectors (env_spec : DeploymentEnvironmentSpec) (app_spec : AppSpec)
    (en : String) (h : validate env_spec app_spec en = .ok ()) :
    ∀ svc ∈ app_spec.all_services, ∀ n, ServiceEnvOption.Simple n ∈ svc.environment →
      n ∈ appDefinedEnvVars app_spec := by
  rw [validate] at h
  cases hfind : env_spec.deployments.find? (fun d => d.name = en) with
  | none => rw [hfind] at h; cases h
  | some dep =>
      rw [hfind] at h
      dsimp only at h
      split_ifs at h
      cases h1 : checkSecrets (dep.secrets.map (fun (s : DeploymentSecretSpec) => s.secret_name))
          app_spec.secrets with
      | error e => rw [h1] at h; cases h
      | ok u1 =>
          rw [h1] at h
          cases h2 : checkConfigs (dep.configs.map (fun c => c.name)) app_spec.configs with
          | error e => rw [h2] at h; cases h
          | ok u2 =>
              rw [h2] at h
              cases h3 : (match dep.services with
                | some svcs =>
                    checkDeploymentServices (app_spec.all_services.map (fun (s : ServiceSpec) => s.name)) svcs
                | none => .ok ()) with
              | error e => rw [h3] at h; cases h
              | ok u3 =>
                  rw [h3] at h
                  exact checkServiceSelectors_ok (appDefinedEnvVars app_spec)
                    app_spec.all_services h

/-- C2 amended: validation fails whenever some service carries a Simple
selector whose name is declared in none of the external, relative or
internal tiers — including a name declared only in the optional tier; such
selectors are rejected by the validator rather than passed through. -/
theorem C2_amended : ∀ (env_spec : DeploymentEnvironmentSpec) (app_spec : AppSpec) (en : String),
    (∃ svc ∈ app_spec.all_services, ∃ n, ServiceEnvOption.Simple n ∈ svc.environment
      ∧ n ∉ appDefinedEnvVars app_spec) →
    validate env_spec app_spec en ≠ .ok () := by
  rintro env_spec app_spec en ⟨svc, hsvc, n, hn, hnd⟩ h
  exact hnd (validate_ok_selectors env_spec app_spec en h svc hsvc n hn)

/-- C2 counterexample: a Simple selector naming a variable declared only in
the optional tier does not pass validation — the validator rejects it with
an undefined-selector error, contradicting the claim that such selectors
are left for the resolver. -/
theorem C2_counterexample :
    validate
      { env_type := .Local,
        ingress := { name := "ing", hosts := [], tls := none },
        registry := [],
        deployments := [{ name := "d", primary_host := "main",
                          application := { name := "web", version := none, extra := [] },
                          environment := [], undockerized_environment := [],
                          configs := [], secrets := [],
                          defaults := { replicas := 1,
                                        requests := { memory := "64Mi", cpu := "100m" },
                                        limits := { memory := "64Mi", cpu := "100m" } },
                          services := none }] }
      { name := "web", version := "1.2.3",
        environment := { external := [], optional := [⟨"OPT"⟩], relative := [], internal := [] },
        app_services := [],
        extra_services := [{ name := "api", service_type := .Internal, is_app_service := false,
                             image_variants := [{ variant_name := "default", image := "img" }],
                             environment := [.Simple "OPT"], configs := [], secrets := [],
                             ports := [] }],
        configs := [], secrets := [] }
      "d" = .error (.undefinedEnvSelector "api" "OPT") := rfl

theorem C2_witness :
    validate
      { env_type := .Local,
        ingress := { name := "ing", hosts := [], tls := none },
        registry := [], deployments := [] }
      { name := "web", version := "1.2.3",
        environment := { external := [], optional := [⟨"OPT"⟩], relative := [], internal := [] },
        app_services := [],
        extra_services := [{ name := "api", service_type := .Internal, is_app_service := false,
                             image_variants := [{ variant_name := "default", image := "img" }],
                             environment := [.Simple "OPT"], configs := [], secrets := [],
                             ports := [] }],
        configs := [], secrets := [] }
      "d" ≠ .ok () :=
  C2_amended _ _ "d"
    ⟨{ name := "api", service_type := .Internal, is_app_service := false,
       image_variants := [{ variant_name := "default", image := "img" }],
       environment := [.Simple "OPT"], configs := [], secrets := [], ports := [] },
      by simp [AppSpec.all_services],
      "OPT", by simp, by simp [appDefinedEnvVars]⟩

lemma foldl_append_eq_flatMap {α β : Type _} (g : α → List β) : ∀ (l : List α) (init : List β),
    l.foldl (fun acc x => acc ++ g x) init = init ++ l.flatMap g := by
  intro l
  induction l with
  | nil => intro init; simp
  | cons x rest ih => intro init; simp [ih]

lemma ingressPort_eq_specPort (ds : DeploymentServiceSpec) : ingressPort ds = specPort ds := by
  rw [ingressPort, specPort]
  by_cases h : ∃ p ∈ ds.ports, p.external = 80
  · rw [if_pos, if_pos]
    · simpa [List.any_eq_true] using h
    · simpa [List.find?_isSome] using h
  · rw [if_neg, if_neg]
    · cases ds.ports with
      | nil => rfl
      | cons p rest => rfl
    · simpa [List.any_eq_true] using h
    · simpa [List.find?_isSome] using h

lemma serviceRulesFor_eq_spec (app_spec : AppSpec) (deployment : DeploymentSpec)
    (host_name : String) :
    serviceRulesFor app_spec deployment host_name = specRulesFor app_spec deployment host_name := by
  rw [serviceRulesFor, specRulesFor]
  have hbody : (fun (acc : List IngressToServiceRule) (svc : ServiceSpec) =>
      match deploymentServiceOpt deployment svc.name with
      | some ds =>
          if svc.service_type = .Public then
            if ds.host.getD deployment.primary_host = host_name then
              acc ++ ds.prefixes.map (fun p =>
                { service_name := app_spec.name ++ "-" ++ svc.name,
                  port := ingressPort ds,
                  prefix_value := p.value,
                  strip_flag := p.strip })
            else acc
          else acc
      | none => acc) = (fun acc svc => acc ++
        (match deploymentServiceOpt deployment svc.name with
          | some ds =>
              if svc.service_type = .Public ∧ ds.host.getD deployment.primary_host = host_name then
                ds.prefixes.map (fun p =>
                  { service_name := app_spec.name ++ "-" ++ svc.name,
                    port := specPort ds,
                    prefix_value := p.value,
                    strip_flag := p.strip })
              else []
          | none => [])) := by
    funext acc svc
    cases hdso : deploymentServiceOpt deployment svc.name with
    | none => simp
    | some ds =>
        dsimp only
        rw [← ingressPort_eq_specPort ds]
        by_cases h1 : svc.service_type = .Public
        · by_cases h2 : ds.host.getD deployment.primary_host = host_name
          · simp [h1, h2]
          · simp [h1, h2]
        · simp [h1]
  rw [hbody, foldl_append_eq_flatMap, List.nil_append]

lemma filterMap_flatMap_pairs {α β γ : Type _} (g : α → List β) (f : β → Option γ) :
    ∀ (l : List α), (l.flatMap g).filterMap f = l.flatMap (fun x => (g x).filterMap f) := by
  intro l
  induction l with
  | nil => rfl
  | cons x rest ih => simp [ih]

/-- C8: ingress derivation chooses the routing port as 80 when a declared
port maps from external 80, else the first declared port's external value,
else 80; it emits exactly one rule per declared prefix with the service's
full name, that port, the prefix and the strip flag; and a domain that
collects no rules is omitted. -/
theorem C8_ingress : ∀ (env_spec : DeploymentEnvironmentSpec) (app_spec : AppSpec)
    (deployment : DeploymentSpec),
    ingressRules env_spec app_spec deployment = specIngressRules env_spec app_spec deployment := by
  intro env_spec app_spec deployment
  rw [ingressRules, specIngressRules, filterMap_flatMap_pairs]
  have houter : ∀ (hosts : List HostSpec) (init : List IngressRule),
      hosts.foldl (fun acc hs =>
        hs.domain_names.foldl (fun acc2 domain =>
          let rules := serviceRulesFor app_spec deployment hs.name
          if rules.isEmpty then acc2
          else acc2 ++ [{ domain_name := domain, services := rules }]) acc) init
      = init ++ hosts.flatMap (fun hs =>
          (hs.domain_names.map (fun d => (hs.name, d))).filterMap (fun hd =>
            let rules := specRulesFor app_spec deployment hd.1
            if rules = [] then none
            else some { domain_name := hd.2, services := rules })) := by
    intro hosts
    induction hosts with
    | nil => intro init; simp
    | cons hs rest ih =>
        intro init
        rw [List.foldl_cons, ih]
        have hinner : ∀ (domains : List String) (acc : List IngressRule),
            domains.foldl (fun acc2 domain =>
              let rules := serviceRulesFor app_spec deployment hs.name
              if rules.isEmpty then acc2
              else acc2 ++ [{ domain_name := domain, services := rules }]) acc
            = acc ++ (domains.map (fun d => (hs.name, d))).filterMap (fun hd =>
                let rules := specRulesFor app_spec deployment hd.1
                if rules = [] then none
                else some { domain_name := hd.2, services := rules }) := by
          intro domains
          induction domains with
          | nil => intro acc; simp
          | cons d drest dih =>
              intro acc
              rw [List.foldl_cons, dih]
              rw [serviceRulesFor_eq_spec]
              by_cases hr : specRulesFor app_spec deployment hs.name = []
              · simp [hr]
              · simp only [hr, if_neg hr, List.isEmpty_iff, if_false]
                simp [hr, List.append_assoc]
        rw [hinner, List.flatMap_cons, List.append_assoc]
  rw [houter, List.nil_append]

lemma ebind_ok_iff {α β γ : Type _} (x : Except γ α) (f : α → Except γ β) (b : β) :
    x.bind f = .ok b ↔ ∃ a, x = .ok a ∧ f a = .ok b := by
  cases x <;> simp [Except.bind]

lemma ebind_error_iff {α β γ : Type _} (x : Except γ α) (f : α → Except γ β) (e : γ) :
    x.bind f = .error e ↔ x = .error e ∨ ∃ a, x = .ok a ∧ f a = .error e := by
  cases x <;> simp [Except.bind]

lemma resolveImage_registry_empty (env_spec : DeploymentEnvironmentSpec) (ver : String)
    (svc : ServiceSpec) (vn : String) (h1 : env_spec.env_type ≠ .Local)
    (h2 : env_spec.registry = []) : ∀ img, resolveImage env_spec ver svc vn ≠ .ok img := by
  intro img h
  rw [resolveImage] at h
  cases hv : (svc.image_variants.find? (fun v => v.variant_name = vn)).map (·.image) with
  | none => rw [hv] at h; cases h
  | some raw0 =>
      rw [hv] at h
      dsimp only at h
      rw [if_pos ⟨h1, h2⟩] at h
      cases h

lemma serviceStep_ok_registry (env_spec : DeploymentEnvironmentSpec) (app_spec : AppSpec)
    (deployment : DeploymentSpec) (rc : List ConfigResolvedSpec) (rs : List SecretResolvedSpec)
    (svc : ServiceSpec) (seen : List (String × String))
    (out : ServiceResolvedSpec × List (String × String))
    (h : serviceStep env_spec app_spec deployment rc rs svc seen = .ok out) :
    ¬(env_spec.env_type ≠ .Local ∧ env_spec.registry = []) := by
  intro hcon
  rw [serviceStep, ebind_ok_iff] at h
  obtain ⟨hd, hH, h⟩ := h
  rw [ebind_ok_iff] at h
  obtain ⟨img, hI, h⟩ := h
  exact resolveImage_registry_empty env_spec app_spec.version svc _ hcon.1 hcon.2 img hI

/-- C9: whenever the environment type is not Local and the registry map is
empty, resolution fails for any application with at least one service. -/
theorem C9_registry_required : ∀ (env_spec : DeploymentEnvironmentSpec) (app_spec : AppSpec)
    (dn : String) (sys : SysState),
    env_spec.env_type ≠ .Local → env_spec.registry = [] → app_spec.all_services ≠ [] →
    (resolve env_spec app_spec dn sys).isOk = false := by
  intro env_spec app_spec dn sys h1 h2 h3
  cases hres : resolve env_spec app_spec dn sys with
  | error e => rfl
  | ok r =>
      exfalso
      rw [resolve, ebind_ok_iff] at hres
      obtain ⟨dep, hdep, hres⟩ := hres
      rw [ebind_ok_iff] at hres
      obtain ⟨rcs, hc, hres⟩ := hres
      rw [ebind_ok_iff] at hres
      obtain ⟨rss, hs, hres⟩ := hres
      rw [ebind_ok_iff] at hres
      obtain ⟨svcs, hl, hres⟩ := hres
      cases hsvcs : app_spec.all_services with
      | nil => exact h3 hsvcs
      | cons s rest =>
          rw [hsvcs, serviceLoop, ebind_ok_iff] at hl
          obtain ⟨out, hstep, hl⟩ := hl
          exact serviceStep_ok_registry env_spec app_spec dep rcs rss
            s [] out hstep ⟨h1, h2⟩

theorem C9_witness :
    ({ env_type := .K8S,
       ingress := { name := "ing", hosts := [], tls := none },
       registry := [], deployments := [] } : DeploymentEnvironmentSpec).env_type
        ≠ DeploymentEnvType.Local
    ∧ ({ env_type := .K8S,
         ingress := { name := "ing", hosts := [], tls := none },
         registry := [], deployments := [] } : DeploymentEnvironmentSpec).registry = []
    ∧ ({ name := "web", version := "1.2.3",
         environment := { external := [], optional := [], relative := [], internal := [] },
         app_services := [],
         extra_services := [{ name := "api", service_type := .Internal, is_app_service := false,
                              image_variants := [{ variant_name := "default", image := "img" }],
                              environment := [], configs := [], secrets := [],
                              ports := [] }],
         configs := [], secrets := [] } : AppSpec).all_services ≠ []
    ∧ (resolve
        { env_type := .K8S,
          ingress := { name := "ing", hosts := [], tls := none },
          registry := [], deployments := [] }
        { name := "web", version := "1.2.3",
          environment := { external := [], optional := [], relative := [], internal := [] },
          app_services := [],
          extra_services := [{ name := "api", service_type := .Internal, is_app_service := false,
                               image_variants := [{ variant_name := "default", image := "img" }],
                               environment := [], configs := [], secrets := [],
                               ports := [] }],
          configs := [], secrets := [] }
        "d" { fs := [], procEnv := [] }).isOk = false := by
  refine ⟨by decide, rfl, by decide, ?_⟩
  exact C9_registry_required _ _ "d" _ (by decide) rfl (by decide)

lemma interpGo_error_not_dup (vars : List EnvVariable) : ∀ (st : InterpState) (l : List Char)
    (e : ResolveError), interpGo vars st l = .error e → e.isDupPair = false := by
  intro st l
  induction st, l using interpGo.induct vars with
  | case1 => intro e he; cases he
  | case2 c => intro e he; cases he
  | case3 c1 c2 rest hg ih =>
      intro e he
      rw [interpGo, if_pos hg] at he
      exact ih e he
  | case4 c1 c2 rest hg tail hok ih =>
      intro e he
      rw [interpGo, if_neg hg, hok] at he
      cases he
  | case5 c1 c2 rest hg e2 herr ih =>
      intro e he
      rw [interpGo, if_neg hg, herr] at he
      cases he
      exact ih _ herr
  | case6 acc => intro e he; cases he; rfl
  | case7 acc rest v hfind tail hok ih =>
      intro e he
      rw [interpGo, if_pos rfl, hfind, hok] at he
      cases he
  | case8 acc rest v hfind e2 herr ih =>
      intro e he
      rw [interpGo, if_pos rfl, hfind, herr] at he
      cases he
      exact ih _ herr
  | case9 acc rest hfind =>
      intro e he
      rw [interpGo, if_pos rfl, hfind] at he
      cases he
      rfl
  | case10 acc c rest hne ih =>
      intro e he
      rw [interpGo, if_neg hne] at he
      exact ih e he

lemma rvs_error_not_dup (input : String) (vars : List EnvVariable) (e : ResolveError)
    (h : resolve_variable_in_string input vars = .error e) : e.isDupPair = false := by
  rw [resolve_variable_in_string] at h
  cases hi : interpGo vars .plain input.data with
  | ok cs => rw [hi] at h; cases h
  | error e2 =>
      rw [hi] at h
      cases h
      exact interpGo_error_not_dup vars .plain input.data e hi

lemma externalPass_error_not_dup (dv : List EnvVariable) : ∀ (ext : List ExternalEnvVariable)
    (acc : List EnvVariable) (e : ResolveError),
    externalPass dv ext acc = .error e → e.isDupPair = false := by
  intro ext
  induction ext with
  | nil => intro acc e he; cases he
  | cons x rest ih =>
      intro acc e he
      rw [externalPass] at he
      cases hv : (match dv.find? (fun d => d.name = x.name) with
        | some d => some d.value
        | none => x.default) with
      | some v => rw [hv] at he; exact ih _ e he
      | none => rw [hv] at he; cases he; rfl

lemma relativePass_error_not_dup (host : Option String) : ∀ (l : List RelativeEnvVariable)
    (acc : List EnvVariable) (e : ResolveError),
    relativePass host l acc = .error e → e.isDupPair = false := by
  intro l
  induction l with
  | nil => intro acc e he; cases he
  | cons x rest ih =>
      intro acc e he
      simp only [relativePass] at he
      cases host with
      | some hh =>
          dsimp only at he
          cases hv : resolve_variable_in_string ("https://" ++ hh ++ x.relative_value) acc with
          | ok value => rw [hv] at he; exact ih _ e he
          | error e2 =>
              rw [hv] at he
              cases he
              exact rvs_error_not_dup _ _ e hv
      | none =>
          dsimp only at he
          exact ih _ e he

lemma internalPass_error_not_dup : ∀ (l : List InternalEnvVariable)
    (acc : List EnvVariable) (e : ResolveError),
    internalPass l acc = .error e → e.isDupPair = false := by
  intro l
  induction l with
  | nil => intro acc e he; cases he
  | cons x rest ih =>
      intro acc e he
      rw [internalPass] at he
      cases hv : resolve_variable_in_string x.value acc with
      | ok value => rw [hv] at he; exact ih _ e he
      | error e2 =>
          rw [hv] at he
          cases he
          exact rvs_error_not_dup _ _ e hv

lemma raev_error_not_dup (app_spec : AppSpec) (dv : List EnvVariable) (host : Option String)
    (e : ResolveError) (h : resolve_app_env_vars app_spec dv host = .error e) :
    e.isDupPair = false := by
  rw [resolve_app_env_vars] at h
  cases h1 : externalPass dv app_spec.environment.external [] with
  | error e2 => rw [h1] at h; cases h; exact externalPass_error_not_dup dv _ _ e h1
  | ok acc1 =>
      rw [h1] at h
      dsimp only at h
      cases h2 : relativePass host app_spec.environment.relative
          (optionalPass dv app_spec.environment.optional acc1) with
      | error e2 => rw [h2] at h; cases h; exact relativePass_error_not_dup host _ _ e h2
      | ok acc3 =>
          rw [h2] at h
          exact internalPass_error_not_dup _ _ e h

lemma filterPass_error_not_dup (sn : String) (all_env_vars : List EnvVariable) :
    ∀ (opts : List ServiceEnvOption) (acc : List EnvVariable) (e : ResolveError),
    filterPass sn all_env_vars opts acc = .error e → e.isDupPair = false := by
  intro opts
  induction opts with
  | nil => intro acc e he; cases he
  | cons o rest ih =>
      intro acc e he
      cases o with
      | All => rw [filterPass] at he; exact ih _ e he
      | Simple n =>
          rw [filterPass] at he
          cases hf : all_env_vars.find? (fun v => v.name = n) with
          | some v => rw [hf] at he; exact ih _ e he
          | none => rw [hf] at he; cases he; rfl
      | WithValue k v =>
          rw [filterPass] at he
          cases hv : resolve_variable_in_string v all_env_vars with
          | ok value => rw [hv] at he; exact ih _ e he
          | error e2 => rw [hv] at he; cases he; exact rvs_error_not_dup _ _ e hv

lemma rasi_error_not_dup (env_spec : DeploymentEnvironmentSpec) (raw : String)
    (e : ResolveError) (h : resolve_app_service_image env_spec raw = .error e) :
    e.isDupPair = false := by
  rw [resolve_app_service_image] at h
  cases hs : splitOnceChars '/' raw.data with
  | none => rw [hs] at h; cases h
  | some nsrest =>
      rw [hs] at h
      cases nsrest with
      | mk ns rest =>
          dsimp only at h
          cases hr : (env_spec.registry.find? (fun p => p.1 = String.mk ns)).map (·.2) with
          | some host => rw [hr] at h; cases h
          | none =>
              rw [hr] at h
              by_cases hl : env_spec.env_type = .Local
              · rw [if_pos hl] at h; cases h
              · rw [if_neg hl] at h; cases h; rfl

lemma resolveImage_error_not_dup (env_spec : DeploymentEnvironmentSpec) (ver : String)
    (svc : ServiceSpec) (vn : String) (e : ResolveError)
    (h : resolveImage env_spec ver svc vn = .error e) : e.isDupPair = false := by
  rw [resolveImage] at h
  cases hv : (svc.image_variants.find? (fun v => v.variant_name = vn)).map (·.image) with
  | none => rw [hv] at h; cases h; rfl
  | some raw0 =>
      rw [hv] at h
      dsimp only at h
      by_cases hc : env_spec.env_type ≠ .Local ∧ env_spec.registry = []
      · rw [if_pos hc] at h; cases h; rfl
      · rw [if_neg hc] at h
        by_cases ha : svc.is_app_service = true
        · rw [if_pos ha] at h
          exact rasi_error_not_dup env_spec _ e h
        · rw [if_neg ha] at h; cases h

lemma resolveServiceConfigs_error_not_dup (an sn : String) (rc : List ConfigResolvedSpec) :
    ∀ (l : List ServiceConfigOption) (e : ResolveError),
    resolveServiceConfigs an sn rc l = .error e → e.isDupPair = false := by
  intro l
  induction l with
  | nil => intro e he; cases he
  | cons sc rest ih =>
      intro e he
      rw [resolveServiceConfigs] at he
      by_cases hc : rc.any (fun c => c.name = an ++ "-" ++ sc.config_name)
      · rw [if_pos hc] at he
        cases hr : resolveServiceConfigs an sn rc rest with
        | ok more => rw [hr] at he; cases he
        | error e2 => rw [hr] at he; cases he; exact ih e hr
      · rw [if_neg hc] at he; cases he; rfl

lemma resolveServiceSecrets_error_not_dup (an sn : String) (rs : List SecretResolvedSpec) :
    ∀ (l : List ServiceSecret) (e : ResolveError),
    resolveServiceSecrets an sn rs l = .error e → e.isDupPair = false := by
  intro l
  induction l with
  | nil => intro e he; cases he
  | cons sec rest ih =>
      intro e he
      rw [resolveServiceSecrets] at he
      by_cases hc : rs.any (fun s => s.name = an ++ "-" ++ sec.name)
      · rw [if_pos hc] at he
        cases hr : resolveServiceSecrets an sn rs rest with
        | ok more => rw [hr] at he; cases he
        | error e2 => rw [hr] at he; cases he; exact ih e hr
      · rw [if_neg hc] at he; cases he; rfl

lemma resolveConfigFiles_error_not_dup (sys : SysState) : ∀ (l : List String)
    (e : ResolveError), resolveConfigFiles sys l = .error e → e.isDupPair = false := by
  intro l
  induction l with
  | nil => intro e he; cases he
  | cons p rest ih =>
      intro e he
      rw [resolveConfigFiles] at he
      cases hn : sys.node p with
      | none => rw [hn] at he; cases he; rfl
      | some node =>
          rw [hn] at he
          cases node with
          | dir entries =>
              dsimp only at he
              cases hr : resolveConfigFiles sys rest with
              | ok more => rw [hr] at he; cases he
              | error e2 => rw [hr] at he; cases he; exact ih e hr
          | file content =>
              dsimp only at he
              cases hr : resolveConfigFiles sys rest with
              | ok more => rw [hr] at he; cases he
              | error e2 => rw [hr] at he; cases he; exact ih e hr

lemma resolveConfigs_error_not_dup (sys : SysState) (an : String) : ∀ (l : List ConfigSpec)
    (e : ResolveError), resolveConfigs sys an l = .error e → e.isDupPair = false := by
  intro l
  induction l with
  | nil => intro e he; cases he
  | cons c rest ih =>
      intro e he
      rw [resolveConfigs] at he
      cases hf : resolveConfigFiles sys c.files with
      | error e2 => rw [hf] at he; cases he; exact resolveConfigFiles_error_not_dup sys _ e hf
      | ok files =>
          rw [hf] at he
          dsimp only at he
          cases hr : resolveConfigs sys an rest with
          | ok more => rw [hr] at he; cases he
          | error e2 => rw [hr] at he; cases he; exact ih e hr

lemma resolveSecrets_error_not_dup (sys : SysState) (an : String) :
    ∀ (l : List DeploymentSecretSpec) (e : ResolveError),
    resolveSecrets sys an l = .error e → e.isDupPair = false := by
  intro l
  induction l with
  | nil => intro e he; cases he
  | cons s rest ih =>
      intro e he
      rw [resolveSecrets] at he
      cases hsrc : s.source with
      | EnvVariable n =>
          rw [hsrc] at he
          dsimp only at he
          cases hp : (sys.procEnv.find? (fun x => x.1 = n)).map (·.2) with
          | none =>
              rw [hp] at he
              dsimp only at he
              cases he; rfl
          | some v =>
              rw [hp] at he
              dsimp only at he
              cases hr : resolveSecrets sys an rest with
              | ok more => rw [hr] at he; cases he
              | error e2 => rw [hr] at he; cases he; exact ih e hr
      | FilePath p =>
          rw [hsrc] at he
          dsimp only at he
          cases hn : sys.node p with
          | none => rw [hn] at he; dsimp only at he; cases he; rfl
          | some node =>
              rw [hn] at he
              cases node with
              | file content =>
                  dsimp only at he
                  cases hr : resolveSecrets sys an rest with
                  | ok more => rw [hr] at he; cases he
                  | error e2 => rw [hr] at he; cases he; exact ih e hr
              | dir entries =>
                  dsimp only at he
                  cases he; rfl
      | Embedded v =>
          rw [hsrc] at he
          dsimp only at he
          cases hr : resolveSecrets sys an rest with
          | ok more => rw [hr] at he; cases he
          | error e2 => rw [hr] at he; cases he; exact ih e hr

lemma insertPrefixes_ok_facts (service host : String) : ∀ (ps : List PrefixSpec)
    (seen seen' : List (String × String)),
    insertPrefixes service host ps seen = .ok seen' →
    (ps.map (fun p => (host, p.value))).Nodup
    ∧ (∀ x ∈ ps.map (fun p => (host, p.value)), x ∉ seen)
    ∧ (∀ x, x ∈ seen' ↔ x ∈ ps.map (fun p => (host, p.value)) ∨ x ∈ seen) := by
  intro ps
  induction ps with
  | nil =>
      intro seen seen' h
      cases h
      simp
  | cons p rest ih =>
      intro seen seen' h
      rw [insertPrefixes] at h
      by_cases hk : (host, p.value) ∈ seen
      · rw [if_pos hk] at h; cases h
      · rw [if_neg hk] at h
        obtain ⟨hnd, hdisj, hmem⟩ := ih ((host, p.value) :: seen) seen' h
        refine ⟨?_, ?_, ?_⟩
        · rw [List.map_cons, List.nodup_cons]
          constructor
          · intro hc
            exact (hdisj _ hc) (List.mem_cons_self _ _)
          · exact hnd
        · intro x hx
          rcases List.mem_cons.mp hx with h1 | h1
          · subst h1; exact hk
          · intro hc
            exact (hdisj x h1) (List.mem_cons_of_mem _ hc)
        · intro x
          rw [hmem x, List.map_cons, List.mem_cons, List.mem_cons]
          tauto

lemma insertPrefixes_error_violation (service host : String) : ∀ (ps : List PrefixSpec)
    (seen : List (String × String)) (e : ResolveError),
    insertPrefixes service host ps seen = .error e →
    ¬((ps.map (fun p => (host, p.value))).Nodup
      ∧ ∀ x ∈ ps.map (fun p => (host, p.value)), x ∉ seen) := by
  intro ps
  induction ps with
  | nil => intro seen e h; cases h
  | cons p rest ih =>
      intro seen e h
      rw [insertPrefixes] at h
      by_cases hk : (host, p.value) ∈ seen
      · rintro ⟨_, hdisj⟩
        exact hdisj (host, p.value) (by simp) hk
      · rw [if_neg hk] at h
        rintro ⟨hnd, hdisj⟩
        rw [List.map_cons, List.nodup_cons] at hnd
        refine ih ((host, p.value) :: seen) e h ⟨hnd.2, ?_⟩
        intro x hx
        rw [List.mem_cons]
        rintro (h1 | h1)
        · subst h1; exact hnd.1 hx
        · exact hdisj x (List.mem_cons_of_mem _ hx) h1

lemma insertPrefixes_dup_error (service host : String) (ps : List PrefixSpec)
    (seen : List (String × String)) (e : ResolveError)
    (h : insertPrefixes service host ps seen = .error e) : e.isDupPair = true := by
  induction ps generalizing seen with
  | nil => cases h
  | cons p rest ih =>
      rw [insertPrefixes] at h
      by_cases hk : (host, p.value) ∈ seen
      · rw [if_pos hk] at h; cases h; rfl
      · rw [if_neg hk] at h; exact ih _ h

lemma serviceStep_ok_pairs (env_spec : DeploymentEnvironmentSpec) (app_spec : AppSpec)
    (deployment : DeploymentSpec) (rc : List ConfigResolvedSpec) (rs : List SecretResolvedSpec)
    (svc : ServiceSpec) (seen : List (String × String)) (r : ServiceResolvedSpec)
    (seen' : List (String × String))
    (h : serviceStep env_spec app_spec deployment rc rs svc seen = .ok (r, seen')) :
    (servicePairs deployment svc).Nodup
    ∧ (∀ x ∈ servicePairs deployment svc, x ∉ seen)
    ∧ (∀ x, x ∈ seen' ↔ x ∈ servicePairs deployment svc ∨ x ∈ seen) := by
  rw [serviceStep, ebind_ok_iff] at h
  obtain ⟨hd, hH, h⟩ := h
  rw [ebind_ok_iff] at h
  obtain ⟨img, hI, h⟩ := h
  rw [ebind_ok_iff] at h
  obtain ⟨seen2, hins, h⟩ := h
  rw [ebind_ok_iff] at h
  obtain ⟨ev, hev, h⟩ := h
  rw [ebind_ok_iff] at h
  obtain ⟨fv, hfv, h⟩ := h
  rw [ebind_ok_iff] at h
  obtain ⟨uv, huv, h⟩ := h
  rw [ebind_ok_iff] at h
  obtain ⟨fu, hfu, h⟩ := h
  rw [ebind_ok_iff] at h
  obtain ⟨sc, hsc, h⟩ := h
  rw [ebind_ok_iff] at h
  obtain ⟨ss, hss, h⟩ := h
  have hseen : seen' = seen2 := by
    cases h
    rfl
  subst hseen
  by_cases hp : svc.service_type = .Public
  · rw [if_pos hp] at hins
    cases hdso : deploymentServiceOpt deployment svc.name with
    | some ds =>
        rw [hdso] at hins
        dsimp only [effectiveHostName, effectivePrefixes] at hins
        rw [servicePairs, if_pos hp, hdso]
        exact insertPrefixes_ok_facts svc.name
          (ds.host.getD deployment.primary_host) ds.prefixes seen seen' hins
    | none =>
        rw [hdso] at hins
        dsimp only [effectiveHostName, effectivePrefixes] at hins
        cases hins
        rw [servicePairs, if_pos hp, hdso]
        simp
  · rw [if_neg hp] at hins
    cases hins
    rw [servicePairs, if_neg hp]
    simp

lemma serviceStep_dup_error (env_spec : DeploymentEnvironmentSpec) (app_spec : AppSpec)
    (deployment : DeploymentSpec) (rc : List ConfigResolvedSpec) (rs : List SecretResolvedSpec)
    (svc : ServiceSpec) (seen : List (String × String)) (e : ResolveError)
    (h : serviceStep env_spec app_spec deployment rc rs svc seen = .error e)
    (hdup : e.isDupPair = true) :
    ¬((servicePairs deployment svc).Nodup ∧ ∀ x ∈ servicePairs deployment svc, x ∉ seen) := by
  rw [serviceStep, ebind_error_iff] at h
  rcases h with hH | ⟨hd, hH, h⟩
  · rw [hostDomainFor] at hH
    split at hH
    · cases hH
    · cases hH
      cases hdup
  · rw [ebind_error_iff] at h
    rcases h with hI | ⟨img, hI, h⟩
    · rw [resolveImage_error_not_dup env_spec app_spec.version svc _ e hI] at hdup
      cases hdup
    · rw [ebind_error_iff] at h
      rcases h with hins | ⟨seen2, hins, h⟩
      · by_cases hp : svc.service_type = .Public
        · rw [if_pos hp] at hins
          cases hdso : deploymentServiceOpt deployment svc.name with
          | some ds =>
              rw [hdso] at hins
              dsimp only [effectiveHostName, effectivePrefixes] at hins
              rw [servicePairs, if_pos hp, hdso]
              exact insertPrefixes_error_violation svc.name
                (ds.host.getD deployment.primary_host) ds.prefixes seen e hins
          | none =>
              rw [hdso] at hins
              dsimp only [effectiveHostName, effectivePrefixes] at hins
              cases hins
        · rw [if_neg hp] at hins
          cases hins
      · rw [ebind_error_iff] at h
        rcases h with hev | ⟨ev, hev, h⟩
        · rw [raev_error_not_dup app_spec deployment.environment _ e hev] at hdup
          cases hdup
        · rw [ebind_error_iff] at h
          rcases h with hfv | ⟨fv, hfv, h⟩
          · rw [filter_service_env_vars] at hfv
            rw [filterPass_error_not_dup svc.name ev svc.environment [] e hfv] at hdup
            cases hdup
          · rw [ebind_error_iff] at h
            rcases h with huv | ⟨uv, huv, h⟩
            · rw [raev_error_not_dup app_spec _ _ e huv] at hdup
              cases hdup
            · rw [ebind_error_iff] at h
              rcases h with hfu | ⟨fu, hfu, h⟩
              · rw [filter_service_env_vars] at hfu
                rw [filterPass_error_not_dup svc.name uv svc.environment [] e hfu] at hdup
                cases hdup
              · rw [ebind_error_iff] at h
                rcases h with hsc | ⟨sc, hsc, h⟩
                · rw [resolveServiceConfigs_error_not_dup app_spec.name svc.name rc
                    svc.configs e hsc] at hdup
                  cases hdup
                · rw [ebind_error_iff] at h
                  rcases h with hss | ⟨ss, hss, h⟩
                  · rw [resolveServiceSecrets_error_not_dup app_spec.name svc.name rs
                      svc.secrets e hss] at hdup
                    cases hdup
                  · cases h

lemma serviceLoop_ok_pairs (env_spec : DeploymentEnvironmentSpec) (app_spec : AppSpec)
    (deployment : DeploymentSpec) (rc : List ConfigResolvedSpec)
    (rs : List SecretResolvedSpec) : ∀ (svcs : List ServiceSpec)
    (seen : List (String × String)) (l : List ServiceResolvedSpec),
    serviceLoop env_spec app_spec deployment rc rs svcs seen = .ok l →
    (svcs.flatMap (servicePairs deployment)).Nodup
    ∧ ∀ x ∈ svcs.flatMap (servicePairs deployment), x ∉ seen := by
  intro svcs
  induction svcs with
  | nil => intro seen l h; simp
  | cons s rest ih =>
      intro seen l h
      rw [serviceLoop, ebind_ok_iff] at h
      obtain ⟨rs1, hstep, h⟩ := h
      rw [ebind_ok_iff] at h
      obtain ⟨more, hloop, _⟩ := h
      obtain ⟨hnd1, hdisj1, hmem1⟩ :=
        serviceStep_ok_pairs env_spec app_spec deployment rc rs s seen rs1.1 rs1.2 hstep
      obtain ⟨hnd2, hdisj2⟩ := ih rs1.2 more hloop
      rw [List.flatMap_cons]
      constructor
      · refine List.Nodup.append hnd1 hnd2 ?_
        intro x hx1 hx2
        exact hdisj2 x hx2 ((hmem1 x).mpr (Or.inl hx1))
      · intro x hx
        rcases List.mem_append.mp hx with h1 | h1
        · exact hdisj1 x h1
        · intro hseen
          exact hdisj2 x h1 ((hmem1 x).mpr (Or.inr hseen))

lemma serviceLoop_no_dup_error (env_spec : DeploymentEnvironmentSpec) (app_spec : AppSpec)
    (deployment : DeploymentSpec) (rc : List ConfigResolvedSpec)
    (rs : List SecretResolvedSpec) : ∀ (svcs : List ServiceSpec)
    (seen : List (String × String)) (e : ResolveError),
    serviceLoop env_spec app_spec deployment rc rs svcs seen = .error e →
    (svcs.flatMap (servicePairs deployment)).Nodup →
    (∀ x ∈ svcs.flatMap (servicePairs deployment), x ∉ seen) →
    e.isDupPair = false := by
  intro svcs
  induction svcs with
  | nil => intro seen e h _ _; cases h
  | cons s rest ih =>
      intro seen e h hnd hdisj
      rw [List.flatMap_cons, List.nodup_append] at hnd
      rw [serviceLoop, ebind_error_iff] at h
      rcases h with hstep | ⟨rs1, hstep, h⟩
      · cases hb : e.isDupPair with
        | false => rfl
        | true =>
            exfalso
            refine serviceStep_dup_error env_spec app_spec deployment rc rs s seen e hstep hb
              ⟨hnd.1, ?_⟩
            intro x hx
            exact hdisj x (by rw [List.flatMap_cons]; exact List.mem_append_left _ hx)
      · rw [ebind_error_iff] at h
        rcases h with hloop | ⟨more, hloop, h⟩
        · obtain ⟨hnd1, hdisj1, hmem1⟩ :=
            serviceStep_ok_pairs env_spec app_spec deployment rc rs s seen rs1.1 rs1.2 hstep
          refine ih rs1.2 e hloop hnd.2.1 ?_
          intro x hx hxs
          rcases (hmem1 x).mp hxs with h1 | h1
          · exact hnd.2.2 h1 hx
          · exact hdisj x (by rw [List.flatMap_cons]; exact List.mem_append_right _ hx) h1
        · cases h

/-- C6: two Public services (or the same one twice) claiming the same host
and prefix pair make resolution fail, and when all claimed pairs are
pairwise distinct the uniqueness check itself never fails resolution. -/
theorem C6_uniqueness :
    (∀ (env_spec : DeploymentEnvironmentSpec) (app_spec : AppSpec) (dn : String)
       (sys : SysState) (dep : DeploymentSpec),
       findDeployment env_spec dn = .ok dep →
       ¬ (claimedPairs app_spec dep).Nodup →
       (resolve env_spec app_spec dn sys).isOk = false)
    ∧ (∀ (env_spec : DeploymentEnvironmentSpec) (app_spec : AppSpec) (dn : String)
       (sys : SysState) (s hst p : String),
       (∀ dep, findDeployment env_spec dn = .ok dep → (claimedPairs app_spec dep).Nodup) →
       resolve env_spec app_spec dn sys ≠ .error (.duplicateHostPrefix s hst p)) := by
  constructor
  · intro env_spec app_spec dn sys dep hdep hnd
    cases hres : resolve env_spec app_spec dn sys with
    | error e => rfl
    | ok r =>
        exfalso
        rw [resolve, ebind_ok_iff] at hres
        obtain ⟨dep2, hdep2, hres⟩ := hres
        rw [hdep] at hdep2
        cases hdep2
        rw [ebind_ok_iff] at hres
        obtain ⟨rcs, _, hres⟩ := hres
        rw [ebind_ok_iff] at hres
        obtain ⟨rss, _, hres⟩ := hres
        rw [ebind_ok_iff] at hres
        obtain ⟨svcs, hloop, _⟩ := hres
        exact hnd (by
          rw [claimedPairs]
          exact (serviceLoop_ok_pairs env_spec app_spec dep rcs rss
            app_spec.all_services [] svcs hloop).1)
  · intro env_spec app_spec dn sys s hst p hynd h
    rw [resolve, ebind_error_iff] at h
    rcases h with hdep | ⟨dep, hdep, h⟩
    · rw [findDeployment] at hdep
      split at hdep
      · cases hdep
      · cases hdep
    · rw [ebind_error_iff] at h
      rcases h with hc | ⟨rcs, hc, h⟩
      · have := resolveConfigs_error_not_dup sys app_spec.name dep.configs _ hc
        simp [ResolveError.isDupPair] at this
      · rw [ebind_error_iff] at h
        rcases h with hs | ⟨rss, hs, h⟩
        · have := resolveSecrets_error_not_dup sys app_spec.name dep.secrets _ hs
          simp [ResolveError.isDupPair] at this
        · rw [ebind_error_iff] at h
          rcases h with hl | ⟨svcs, hl, h⟩
          · have := serviceLoop_no_dup_error env_spec app_spec dep rcs rss
              app_spec.all_services [] _ hl (by rw [← claimedPairs]; exact hynd dep hdep)
              (by intro x _ hx; cases hx)
            simp [ResolveError.isDupPair] at this
          · cases h

theorem C6_witness :
    (¬ (claimedPairs
        { name := "web", version := "1.2.3",
          environment := { external := [], optional := [], relative := [], internal := [] },
          app_services := [],
          extra_services := [{ name := "api", service_type := .Public, is_app_service := false,
                               image_variants := [{ variant_name := "default", image := "img" }],
                               environment := [], configs := [], secrets := [], ports := [] }],
          configs := [], secrets := [] }
        { name := "d", primary_host := "main",
          application := { name := "web", version := none, extra := [] },
          environment := [], undockerized_environment := [], configs := [], secrets := [],
          defaults := { replicas := 1, requests := { memory := "64Mi", cpu := "100m" },
                        limits := { memory := "64Mi", cpu := "100m" } },
          services := some [("api",
            { variant := none, host := none,
              prefixes := [{ value := "/app", strip := false },
                           { value := "/app", strip := true }],
              resources := { replicas := 1,
                             requests := { memory := "64Mi", cpu := "100m" },
                             limits := { memory := "64Mi", cpu := "100m" } },
              ports := [] })] }).Nodup)
    ∧ (resolve
        { env_type := .Local,
          ingress := { name := "ing",
                       hosts := [{ name := "main", domain_names := ["example.com"] }],
                       tls := none },
          registry := [],
          deployments := [{ name := "d", primary_host := "main",
                            application := { name := "web", version := none, extra := [] },
                            environment := [], undockerized_environment := [],
                            configs := [], secrets := [],
                            defaults := { replicas := 1,
                                          requests := { memory := "64Mi", cpu := "100m" },
                                          limits := { memory := "64Mi", cpu := "100m" } },
                            services := some [("api",
                              { variant := none, host := none,
                                prefixes := [{ value := "/app", strip := false },
                                             { value := "/app", strip := true }],
                                resources := { replicas := 1,
                                               requests := { memory := "64Mi", cpu := "100m" },
                                               limits := { memory := "64Mi", cpu := "100m" } },
                                ports := [] })] }] }
        { name := "web", version := "1.2.3",
          environment := { external := [], optional := [], relative := [], internal := [] },
          app_services := [],
          extra_services := [{ name := "api", service_type := .Public, is_app_service := false,
                               image_variants := [{ variant_name := "default", image := "img" }],
                               environment := [], configs := [], secrets := [], ports := [] }],
          configs := [], secrets := [] }
        "d" { fs := [], procEnv := [] }).isOk = false
    ∧ (resolve
        { env_type := .Local,
          ingress := { name := "ing",
                       hosts := [{ name := "main", domain_names := ["example.com"] }],
                       tls := none },
          registry := [],
          deployments := [{ name := "d", primary_host := "main",
                            application := { name := "web", version := none, extra := [] },
                            environment := [], undockerized_environment := [],
                            configs := [], secrets := [],
                            defaults := { replicas := 1,
                                          requests := { memory := "64Mi", cpu := "100m" },
                                          limits := { memory := "64Mi", cpu := "100m" } },
                            services := some [("api",
                              { variant := none, host := none,
                                prefixes := [{ value := "/a", strip := false },
                                             { value := "/b", strip := false }],
                                resources := { replicas := 1,
                                               requests := { memory := "64Mi", cpu := "100m" },
                                               limits := { memory := "64Mi", cpu := "100m" } },
                                ports := [] })] }] }
        { name := "web", version := "1.2.3",
          environment := { external := [], optional := [], relative := [], internal := [] },
          app_services := [],
          extra_services := [{ name := "api", service_type := .Public, is_app_service := false,
                               image_variants := [{ variant_name := "default", image := "img" }],
                               environment := [], configs := [], secrets := [], ports := [] }],
          configs := [], secrets := [] }
        "d" { fs := [], procEnv := [] }) ≠ .error (.duplicateHostPrefix "api" "main" "/a") := by
  refine ⟨by decide, ?_, ?_⟩
  · exact C6_uniqueness.1 _ _ "d" _ _ rfl (by decide)
  · exact C6_uniqueness.2 _ _ "d" _ "api" "main" "/a"
      (fun dep hdep => by cases hdep; decide)

/-- C1 counterexample: an extra (unversioned) service's image is not
registry-prefixed even when its namespace has a mapping (first conjunct),
and in a Local environment an app service's image is prefixed whenever its
namespace has a mapping (second conjunct) — both contradicting the claim
that prefixing applies to every service and is skipped exactly when
Local. -/
theorem C1_counterexample :
    ((resolve
        { env_type := .K8S,
          ingress := { name := "ing",
                       hosts := [{ name := "main", domain_names := ["example.com"] }],
                       tls := none },
          registry := [("web", "registry.io")],
          deployments := [{ name := "d", primary_host := "main",
                            application := { name := "web", version := none, extra := [] },
                            environment := [], undockerized_environment := [],
                            configs := [], secrets := [],
                            defaults := { replicas := 1,
                                          requests := { memory := "64Mi", cpu := "100m" },
                                          limits := { memory := "64Mi", cpu := "100m" } },
                            services := none }] }
        { name := "web", version := "1.2.3",
          environment := { external := [], optional := [], relative := [], internal := [] },
          app_services := [],
          extra_services := [{ name := "api", service_type := .Internal, is_app_service := false,
                               image_variants := [{ variant_name := "default", image := "web/api" }],
                               environment := [], configs := [], secrets := [], ports := [] }],
          configs := [], secrets := [] }
        "d" { fs := [], procEnv := [] }).map
      (fun r => r.current_deployment.services.map (fun s => s.image))) = .ok ["web/api"]
    ∧ ((resolve
        { env_type := .Local,
          ingress := { name := "ing",
                       hosts := [{ name := "main", domain_names := ["example.com"] }],
                       tls := none },
          registry := [("web", "registry.io")],
          deployments := [{ name := "d", primary_host := "main",
                            application := { name := "web", version := none, extra := [] },
                            environment := [], undockerized_environment := [],
                            configs := [], secrets := [],
                            defaults := { replicas := 1,
                                          requests := { memory := "64Mi", cpu := "100m" },
                                          limits := { memory := "64Mi", cpu := "100m" } },
                            services := none }] }
        { name := "web", version := "1.2.3",
          environment := { external := [], optional := [], relative := [], internal := [] },
          app_services := [{ name := "api", service_type := .Internal, is_app_service := true,
                             image_variants := [{ variant_name := "default", image := "web/api" }],
                             environment := [], configs := [], secrets := [], ports := [] }],
          extra_services := [],
          configs := [], secrets := [] }
        "d" { fs := [], procEnv := [] }).map
      (fun r => r.current_deployment.services.map (fun s => s.image)))
        = .ok ["registry.io/web/api:latest"] :=
  ⟨rfl, rfl⟩

/-- C1 amended: the image variant matching the active variant name is
selected (fatal if absent); an application's own service is version-tagged
(latest when Local) and then its first path segment is looked up in the
registry map whatever the environment type — a hit prefixes the image with
the mapped host, a miss is fatal except when Local; an image with no slash
passes through, and an extra service's image always passes through
untagged and unprefixed.  This holds whenever the separate
registry-must-not-be-empty gate does not fire. -/
theorem C1_amended : ∀ (env_spec : DeploymentEnvironmentSpec) (ver : String)
    (svc : ServiceSpec) (vn : String),
    ¬(env_spec.env_type ≠ .Local ∧ env_spec.registry = []) →
    resolveImage env_spec ver svc vn = amendedImageSpec env_spec ver svc vn := by
  intro env_spec ver svc vn hgate
  rw [resolveImage, amendedImageSpec]
  cases hv : (svc.image_variants.find? (fun v => v.variant_name = vn)).map (·.image) with
  | none => rfl
  | some img =>
      dsimp only
      rw [if_neg hgate]
      by_cases ha : svc.is_app_service = true
      · simp only [ha, if_true]
        rw [resolve_app_service_image]
        cases hsplit : splitOnceChars '/'
            (if env_spec.env_type = DeploymentEnvType.Local then img ++ ":latest"
             else img ++ ":" ++ ver).data with
        | none => rfl
        | some nsrest => cases nsrest with | mk ns snd => rfl
      · simp only [if_neg ha]

theorem C1_witness :
    ¬((({ env_type := .Local,
          ingress := { name := "ing", hosts := [], tls := none },
          registry := [], deployments := [] } : DeploymentEnvironmentSpec).env_type
            ≠ DeploymentEnvType.Local)
      ∧ ({ env_type := .Local,
           ingress := { name := "ing", hosts := [], tls := none },
           registry := [], deployments := [] } : DeploymentEnvironmentSpec).registry = [])
    ∧ resolveImage
        { env_type := .Local,
          ingress := { name := "ing", hosts := [], tls := none },
          registry := [], deployments := [] }
        "1.2.3"
        { name := "api", service_type := .Internal, is_app_service := true,
          image_variants := [{ variant_name := "default", image := "web/api" }],
          environment := [], configs := [], secrets := [], ports := [] }
        "default"
      = amendedImageSpec
        { env_type := .Local,
          ingress := { name := "ing", hosts := [], tls := none },
          registry := [], deployments := [] }
        "1.2.3"
        { name := "api", service_type := .Internal, is_app_service := true,
          image_variants := [{ variant_name := "default", image := "web/api" }],
          environment := [], configs := [], secrets := [], ports := [] }
        "default" := by
  refine ⟨by decide, ?_⟩
  exact C1_amended _ "1.2.3" _ "default" (by decide)

lemma specExternalTier_names (dv : List EnvVariable) : ∀ (ext : List ExternalEnvVariable)
    (l : List EnvVariable), specExternalTier dv ext = .ok l →
    envNames l = ext.map (fun e => e.name) := by
  intro ext
  induction ext with
  | nil => intro l h; cases h; rfl
  | cons e rest ih =>
      intro l h
      rw [specExternalTier] at h
      cases hval : (match dv.find? (fun d => d.name = e.name) with
        | some d => some d.value
        | none => e.default) with
      | none => rw [hval] at h; cases h
      | some v =>
          rw [hval] at h
          dsimp only at h
          cases hspec : specExternalTier dv rest with
          | error er => rw [hspec] at h; cases h
          | ok l2 =>
              rw [hspec] at h
              cases h
              rw [List.map_cons, envNames_cons, ih l2 hspec]

lemma specOptionalTier_names_sub (dv : List EnvVariable) : ∀ (l : List OptionalEnvVariable)
    (x : String), x ∈ envNames (specOptionalTier dv l) → x ∈ l.map (fun o => o.name) := by
  intro l
  induction l with
  | nil => intro x hx; cases hx
  | cons o rest ih =>
      intro x hx
      rw [specOptionalTier, List.filterMap_cons] at hx
      cases hf : dv.find? (fun d => d.name = o.name) with
      | none =>
          rw [hf] at hx
          exact List.mem_cons_of_mem _ (ih x hx)
      | some d =>
          rw [hf] at hx
          simp only [Option.map_some'] at hx
          rw [envNames_cons] at hx
          rcases List.mem_cons.mp hx with h1 | h1
          · subst h1; exact List.mem_cons_self _ _
          · exact List.mem_cons_of_mem _ (ih x h1)

lemma specRelativeTier_names_sub (host : String) : ∀ (l : List RelativeEnvVariable)
    (acc r : List EnvVariable), specRelativeTier host l acc = .ok r →
    ∀ x, x ∈ envNames r → x ∈ envNames acc ∨ x ∈ l.map (fun v => v.name) := by
  intro l
  induction l with
  | nil => intro acc r h x hx; cases h; exact Or.inl hx
  | cons v rest ih =>
      intro acc r h x hx
      rw [specRelativeTier] at h
      cases hi : resolve_variable_in_string ("https://" ++ host ++ v.relative_value) acc with
      | error e => rw [hi] at h; cases h
      | ok value =>
          rw [hi] at h
          rcases ih (acc ++ [⟨v.name, value⟩]) r h x hx with h1 | h1
          · rw [envNames_append] at h1
            rcases List.mem_append.mp h1 with h2 | h2
            · exact Or.inl h2
            · simp only [envNames, List.map_cons, List.map_nil, List.mem_singleton] at h2
              right
              rw [h2]
              exact List.mem_cons_self _ _
          · exact Or.inr (List.mem_cons_of_mem _ h1)

lemma externalPass_eq_spec (dv : List EnvVariable) : ∀ (ext : List ExternalEnvVariable)
    (acc : List EnvVariable),
    (ext.map (fun e => e.name)).Nodup →
    (∀ e ∈ ext, e.name ∉ envNames acc) →
    externalPass dv ext acc =
      match specExternalTier dv ext with
      | .ok l => .ok (acc ++ l)
      | .error er => .error er := by
  intro ext
  induction ext with
  | nil => intro acc _ _; simp [externalPass, specExternalTier]
  | cons e rest ih =>
      intro acc hnd hfresh
      rw [externalPass, specExternalTier]
      cases hval : (match dv.find? (fun d => d.name = e.name) with
        | some d => some d.value
        | none => e.default) with
      | none => simp only [hval]
      | some v =>
          simp only [hval]
          rw [add_unique_var_not_mem acc { name := e.name, value := v }
            (hfresh e (List.mem_cons_self _ _))]
          rw [List.map_cons, List.nodup_cons] at hnd
          have hfresh' : ∀ x ∈ rest, x.name ∉ envNames (acc ++ [{ name := e.name, value := v }]) := by
            intro x hx
            rw [envNames_append]
            intro hmem
            rcases List.mem_append.mp hmem with h1 | h1
            · exact hfresh x (List.mem_cons_of_mem _ hx) h1
            · simp only [envNames, List.map_cons, List.map_nil, List.mem_singleton] at h1
              exact hnd.1 (h1 ▸ List.mem_map_of_mem (fun e => e.name) hx)
          have heq := ih (acc ++ [{ name := e.name, value := v }]) hnd.2 hfresh'
          rw [heq]
          cases hspec : specExternalTier dv rest with
          | error er => rfl
          | ok l2 => simp

lemma optionalPass_eq_spec (dv : List EnvVariable) : ∀ (l : List OptionalEnvVariable)
    (acc : List EnvVariable),
    (l.map (fun o => o.name)).Nodup →
    (∀ o ∈ l, o.name ∉ envNames acc) →
    optionalPass dv l acc = acc ++ specOptionalTier dv l := by
  intro l
  induction l with
  | nil => intro acc _ _; simp [optionalPass, specOptionalTier]
  | cons o rest ih =>
      intro acc hnd hfresh
      rw [List.map_cons, List.nodup_cons] at hnd
      rw [optionalPass, specOptionalTier, List.filterMap_cons]
      cases hf : dv.find? (fun d => d.name = o.name) with
      | none =>
          rw [← specOptionalTier]
          exact ih acc hnd.2 (fun x hx => hfresh x (List.mem_cons_of_mem _ hx))
      | some d =>
          simp only [Option.map_some']
          rw [add_unique_var_not_mem acc { name := o.name, value := d.value }
            (hfresh o (List.mem_cons_self _ _))]
          rw [← specOptionalTier]
          have hfresh' : ∀ x ∈ rest,
              x.name ∉ envNames (acc ++ [{ name := o.name, value := d.value }]) := by
            intro x hx
            rw [envNames_append]
            intro hmem
            rcases List.mem_append.mp hmem with h1 | h1
            · exact hfresh x (List.mem_cons_of_mem _ hx) h1
            · simp only [envNames, List.map_cons, List.map_nil, List.mem_singleton] at h1
              exact hnd.1 (h1 ▸ List.mem_map_of_mem (fun o => o.name) hx)
          have heq := ih (acc ++ [{ name := o.name, value := d.value }]) hnd.2 hfresh'
          rw [heq]
          simp

lemma relativePass_eq_spec (host : String) : ∀ (l : List RelativeEnvVariable)
    (acc : List EnvVariable),
    (l.map (fun v => v.name)).Nodup →
    (∀ r ∈ l, r.name ∉ envNames acc) →
    relativePass (some host) l acc = specRelativeTier host l acc := by
  intro l
  induction l with
  | nil => intro acc _ _; rfl
  | cons v rest ih =>
      intro acc hnd hfresh
      rw [List.map_cons, List.nodup_cons] at hnd
      rw [specRelativeTier]
      simp only [relativePass]
      cases hi : resolve_variable_in_string ("https://" ++ host ++ v.relative_value) acc with
      | error e => rfl
      | ok value =>
          dsimp only
          rw [add_unique_var_not_mem acc { name := v.name, value := value }
            (hfresh v (List.mem_cons_self _ _))]
          refine ih (acc ++ [{ name := v.name, value := value }]) hnd.2 ?_
          intro x hx
          rw [envNames_append]
          intro hmem
          rcases List.mem_append.mp hmem with h1 | h1
          · exact hfresh x (List.mem_cons_of_mem _ hx) h1
          · simp only [envNames, List.map_cons, List.map_nil, List.mem_singleton] at h1
            exact hnd.1 (h1 ▸ List.mem_map_of_mem (fun v => v.name) hx)

lemma internalPass_eq_spec : ∀ (l : List InternalEnvVariable)
    (acc : List EnvVariable),
    (l.map (fun v => v.name)).Nodup →
    (∀ i ∈ l, i.name ∉ envNames acc) →
    internalPass l acc = specInternalTier l acc := by
  intro l
  induction l with
  | nil => intro acc _ _; rfl
  | cons v rest ih =>
      intro acc hnd hfresh
      rw [List.map_cons, List.nodup_cons] at hnd
      rw [internalPass, specInternalTier]
      cases hi : resolve_variable_in_string v.value acc with
      | error e => rfl
      | ok value =>
          dsimp only
          rw [add_unique_var_not_mem acc { name := v.name, value := value }
            (hfresh v (List.mem_cons_self _ _))]
          refine ih (acc ++ [{ name := v.name, value := value }]) hnd.2 ?_
          intro x hx
          rw [envNames_append]
          intro hmem
          rcases List.mem_append.mp hmem with h1 | h1
          · exact hfresh x (List.mem_cons_of_mem _ hx) h1
          · simp only [envNames, List.map_cons, List.map_nil, List.mem_singleton] at h1
            exact hnd.1 (h1 ▸ List.mem_map_of_mem (fun v => v.name) hx)

lemma raev_eq_spec (app_spec : AppSpec) (dv : List EnvVariable) (host : String)
    (hnd : (declaredTierNames app_spec.environment).Nodup) :
    resolve_app_env_vars app_spec dv (some host)
      = specTieredEnvVars app_spec.environment dv host := by
  rw [declaredTierNames] at hnd
  rw [List.nodup_append] at hnd
  obtain ⟨hndabc, hndd, hdisj_abc_d⟩ := hnd
  rw [List.nodup_append] at hndabc
  obtain ⟨hndab, hndc, hdisj_ab_c⟩ := hndabc
  rw [List.nodup_append] at hndab
  obtain ⟨hnda, hndb, hdisj_a_b⟩ := hndab
  rw [resolve_app_env_vars, specTieredEnvVars]
  rw [externalPass_eq_spec dv app_spec.environment.external [] hnda
    (by intro e _; simp [envNames])]
  cases hext : specExternalTier dv app_spec.environment.external with
  | error e => rfl
  | ok ext =>
      dsimp only
      simp only [List.nil_append]
      have hextnames := specExternalTier_names dv _ ext hext
      have hb : ∀ o ∈ app_spec.environment.optional, o.name ∉ envNames ext := by
        intro o ho
        rw [hextnames]
        intro hmem
        exact hdisj_a_b hmem (List.mem_map_of_mem (fun o => o.name) ho)
      rw [optionalPass_eq_spec dv app_spec.environment.optional ext hndb hb]
      have hc : ∀ r ∈ app_spec.environment.relative,
          r.name ∉ envNames (ext ++ specOptionalTier dv app_spec.environment.optional) := by
        intro r hr
        rw [envNames_append, hextnames]
        intro hmem
        have hrc := List.mem_map_of_mem (fun v => v.name) hr
        rcases List.mem_append.mp hmem with h1 | h1
        · exact hdisj_ab_c (List.mem_append_left _ h1) hrc
        · exact hdisj_ab_c
            (List.mem_append_right _ (specOptionalTier_names_sub dv _ _ h1)) hrc
      rw [relativePass_eq_spec host app_spec.environment.relative
        (ext ++ specOptionalTier dv app_spec.environment.optional) hndc hc]
      cases hrel : specRelativeTier host app_spec.environment.relative
          (ext ++ specOptionalTier dv app_spec.environment.optional) with
      | error e => rfl
      | ok acc3 =>
          dsimp only
          have hd : ∀ i ∈ app_spec.environment.internal, i.name ∉ envNames acc3 := by
            intro i hi
            intro hmem
            have hid := List.mem_map_of_mem (fun v => v.name) hi
            rcases specRelativeTier_names_sub host _ _ acc3 hrel i.name hmem with h1 | h1
            · rw [envNames_append, hextnames] at h1
              rcases List.mem_append.mp h1 with h2 | h2
              · exact hdisj_abc_d
                  (List.mem_append_left _ (List.mem_append_left _ h2)) hid
              · exact hdisj_abc_d
                  (List.mem_append_left _ (List.mem_append_right _
                    (specOptionalTier_names_sub dv _ _ h2))) hid
            · exact hdisj_abc_d (List.mem_append_right _ h1) hid
          exact internalPass_eq_spec app_spec.environment.internal acc3 hndd hd

/-- C7: with the declared tier names pairwise distinct, the full variable
set is computed in fixed tier order — external takes the deployment value
or its default (fatal if neither), optional is included only when
supplied, relative resolves to an https URL of the host domain
interpolated against the accumulated set, internal is interpolated against
the accumulated set — and the second, undockerized set is computed the
same way on the deployment environment merged with the undockerized
overrides (replacing matching names, appending the rest). -/
theorem C7_env_tiers : ∀ (app_spec : AppSpec) (deployment : DeploymentSpec) (host : String),
    (declaredTierNames app_spec.environment).Nodup →
    resolve_app_env_vars app_spec deployment.environment (some host)
      = specTieredEnvVars app_spec.environment deployment.environment host
    ∧ resolve_app_env_vars app_spec
        (deployment.undockerized_environment.foldl add_unique_var deployment.environment)
        (some host)
      = specTieredEnvVars app_spec.environment
        (deployment.undockerized_environment.foldl add_unique_var deployment.environment)
        host := by
  intro app_spec deployment host hnd
  exact ⟨raev_eq_spec app_spec deployment.environment host hnd,
    raev_eq_spec app_spec
      (deployment.undockerized_environment.foldl add_unique_var deployment.environment)
      host hnd⟩

theorem C7_witness :
    (declaredTierNames
      { external := [⟨"E", none⟩], optional := [⟨"O"⟩],
        relative := [⟨"R", "/api"⟩], internal := [⟨"I", "${E}"⟩] }).Nodup
    ∧ resolve_app_env_vars
        { name := "web", version := "1.2.3",
          environment := { external := [⟨"E", none⟩], optional := [⟨"O"⟩],
                           relative := [⟨"R", "/api"⟩], internal := [⟨"I", "${E}"⟩] },
          app_services := [], extra_services := [], configs := [], secrets := [] }
        [⟨"E", "v"⟩] (some "example.com")
      = specTieredEnvVars
        { external := [⟨"E", none⟩], optional := [⟨"O"⟩],
          relative := [⟨"R", "/api"⟩], internal := [⟨"I", "${E}"⟩] }
        [⟨"E", "v"⟩] "example.com"
    ∧ resolve_app_env_vars
        { name := "web", version := "1.2.3",
          environment := { external := [⟨"E", none⟩], optional := [⟨"O"⟩],
                           relative := [⟨"R", "/api"⟩], internal := [⟨"I", "${E}"⟩] },
          app_services := [], extra_services := [], configs := [], secrets := [] }
        ([⟨"O", "u"⟩].foldl add_unique_var [⟨"E", "v"⟩]) (some "example.com")
      = specTieredEnvVars
        { external := [⟨"E", none⟩], optional := [⟨"O"⟩],
          relative := [⟨"R", "/api"⟩], internal := [⟨"I", "${E}"⟩] }
        ([⟨"O", "u"⟩].foldl add_unique_var [⟨"E", "v"⟩]) "example.com" := by
  refine ⟨by decide, ?_, ?_⟩
  · exact (C7_env_tiers
      { name := "web", version := "1.2.3",
        environment := { external := [⟨"E", none⟩], optional := [⟨"O"⟩],
                         relative := [⟨"R", "/api"⟩], internal := [⟨"I", "${E}"⟩] },
        app_services := [], extra_services := [], configs := [], secrets := [] }
      { name := "d", primary_host := "main",
        application := { name := "web", version := none, extra := [] },
        environment := [⟨"E", "v"⟩], undockerized_environment := [⟨"O", "u"⟩],
        configs := [], secrets := [],
        defaults := { replicas := 1, requests := { memory := "64Mi", cpu := "100m" },
                      limits := { memory := "64Mi", cpu := "100m" } },
        services := none }
      "example.com" (by decide)).1
  · exact (C7_env_tiers
      { name := "web", version := "1.2.3",
        environment := { external := [⟨"E", none⟩], optional := [⟨"O"⟩],
                         relative := [⟨"R", "/api"⟩], internal := [⟨"I", "${E}"⟩] },
        app_services := [], extra_services := [], configs := [], secrets := [] }
      { name := "d", primary_host := "main",
        application := { name := "web", version := none, extra := [] },
        environment := [⟨"E", "v"⟩], undockerized_environment := [⟨"O", "u"⟩],
        configs := [], secrets := [],
        defaults := { replicas := 1, requests := { memory := "64Mi", cpu := "100m" },
                      limits := { memory := "64Mi", cpu := "100m" } },
        services := none }
      "example.com" (by decide)).2

end Simpled
